import Mathlib

/-!
# Verification of the PSET output codec (`ts_src/psetv2/output.ts`)

A shallow embedding of `PsetOutput` — the Partially Signed Elements
Transaction output record — together with its decoder (`fromBuffer`,
modelled at the key/value-pair level as `fromKeyPairs`), its encoder
(`getKeyPairs`), and its invariant checker (`sanityCheck`), plus proofs
about the round-trip, duplicate-detection, proprietary dispatch and
blinding-invariant behaviour of that code.

Buffers are modelled as `List Nat` of byte values; the byte-offset
arithmetic of the source is modelled with `List.drop`/`List.take`
(`v[off]` becomes `(v.drop off).getD 0 0`, `v.slice(a, b)` becomes
`(v.drop a).take (b - a)`, which like JavaScript's `Buffer.slice` clamps
at the end of the buffer and never fails).

The collaborators that are out of scope for the repository slice under
verification (`bufferutils`, `key_pair.ts`, `bip32.ts`,
`proprietary_data.ts`, `fields.ts`, `pset.ts`) are modelled from the
specification's description of their fixed interfaces; each such
definition carries a `Modelled from the spec:` doc comment.
-/

deriving instance DecidableEq for Except

namespace PsetV2

/-- Errors surfaced by the output decoder / invariant checker. Each
constructor corresponds to one `throw` site in `output.ts` (the
`Modelled from the spec:` collaborators raise `malformedBuffer` for
out-of-bounds buffer reads, the spec's `MalformedStream`). -/
inductive PErr where
  | duplicateField (name : String)
  | invalidLength (name : String)
  | malformedBuffer
  | missingValueCommitmentOrProof
  | missingAsset
  | missingAssetCommitmentOrProof
  | partiallyBlindedErr
  | blinderIndexSet
deriving DecidableEq, Repr

/-! ## Little-endian fixed-width integer codecs

Modelled from the spec: `bufferutils`' raw buffer read/write primitives,
"amount 8 bytes LE u64; commitments/pubkeys 33 bytes;
asset/internal-key/leaf-hash 32 bytes; blinder index 4 bytes LE u32". -/

/-- Modelled from the spec: two little-endian bytes of `n`'s low 16 bits. -/
def u16LE (n : Nat) : List Nat :=
  [n % 256, n / 256 % 256]

/-- Modelled from the spec: four little-endian bytes of `n`'s low 32 bits
(`Buffer.writeUInt32LE`). -/
def u32LE (n : Nat) : List Nat :=
  [n % 256, n / 256 % 256, n / 65536 % 256, n / 16777216 % 256]

/-- Modelled from the spec: eight little-endian bytes of `n`'s low 64 bits
(`writeUInt64LE`). -/
def u64LE (n : Nat) : List Nat :=
  [n % 256, n / 256 % 256, n / 65536 % 256, n / 16777216 % 256,
   n / 4294967296 % 256, n / 1099511627776 % 256,
   n / 281474976710656 % 256, n / 72057594037927936 % 256]

/-- Modelled from the spec: read a little-endian u16 from the head of a
byte list (missing bytes read as 0; callers check bounds first). -/
def readU16LE (v : List Nat) : Nat :=
  v.getD 0 0 + 256 * v.getD 1 0

/-- Modelled from the spec: read a little-endian u32 (`Buffer.readUInt32LE`). -/
def readU32LE (v : List Nat) : Nat :=
  v.getD 0 0 + 256 * v.getD 1 0 + 65536 * v.getD 2 0 + 16777216 * v.getD 3 0

/-- Modelled from the spec: read a little-endian u64 (`readUInt64LE`). -/
def readU64LE (v : List Nat) : Nat :=
  v.getD 0 0 + 256 * v.getD 1 0 + 65536 * v.getD 2 0 + 16777216 * v.getD 3 0 +
    4294967296 * v.getD 4 0 + 1099511627776 * v.getD 5 0 +
    281474976710656 * v.getD 6 0 + 72057594037927936 * v.getD 7 0

theorem u16LE_length (n : Nat) : (u16LE n).length = 2 := rfl

theorem u32LE_length (n : Nat) : (u32LE n).length = 4 := rfl

theorem u64LE_length (n : Nat) : (u64LE n).length = 8 := rfl

theorem readU16LE_u16LE (n : Nat) (rest : List Nat) :
    readU16LE (u16LE n ++ rest) = n % 65536 := by
  simp only [u16LE, readU16LE, List.cons_append, List.nil_append,
    List.getD_cons_zero, List.getD_cons_succ]
  omega

theorem readU32LE_u32LE (n : Nat) (rest : List Nat) :
    readU32LE (u32LE n ++ rest) = n % 4294967296 := by
  simp only [u32LE, readU32LE, List.cons_append, List.nil_append,
    List.getD_cons_zero, List.getD_cons_succ]
  omega

theorem readU64LE_u64LE (n : Nat) (rest : List Nat) :
    readU64LE (u64LE n ++ rest) = n % 18446744073709551616 := by
  simp only [u64LE, readU64LE, List.cons_append, List.nil_append,
    List.getD_cons_zero, List.getD_cons_succ]
  omega

/-! ## Varint (Bitcoin CompactSize) codec

Modelled from the spec: `bufferutils`' `varuint` collaborator,
"variable-length unsigned integer (varint) encode/decode". The decoder
reads from the head of the remaining byte list; a missing byte is the
out-of-range read error of the underlying buffer primitive. -/

/-- Modelled from the spec: `varuint.encode`. -/
def varintEncode (n : Nat) : List Nat :=
  if n < 253 then [n]
  else if n < 65536 then 253 :: u16LE n
  else if n < 4294967296 then 254 :: u32LE n
  else 255 :: u64LE n

/-- Modelled from the spec: `varuint.encodingLength`. -/
def varintEncodingLength (n : Nat) : Nat :=
  if n < 253 then 1
  else if n < 65536 then 3
  else if n < 4294967296 then 5
  else 9

/-- Modelled from the spec: `varuint.decode` at the head of the remaining
bytes. Reading past the end of the buffer raises the malformed-buffer
error of the underlying primitives. -/
def varintDecode : List Nat → Except PErr Nat
  | [] => .error .malformedBuffer
  | b :: rest =>
    if b < 253 then .ok b
    else if b = 253 then
      match rest with
      | b0 :: b1 :: _ => .ok (b0 + 256 * b1)
      | _ => .error .malformedBuffer
    else if b = 254 then
      match rest with
      | b0 :: b1 :: b2 :: b3 :: _ =>
        .ok (b0 + 256 * b1 + 65536 * b2 + 16777216 * b3)
      | _ => .error .malformedBuffer
    else
      match rest with
      | b0 :: b1 :: b2 :: b3 :: b4 :: b5 :: b6 :: b7 :: _ =>
        .ok (b0 + 256 * b1 + 65536 * b2 + 16777216 * b3 + 4294967296 * b4 +
          1099511627776 * b5 + 281474976710656 * b6 + 72057594037927936 * b7)
      | _ => .error .malformedBuffer

theorem one_le_varintEncodingLength (n : Nat) : 1 ≤ varintEncodingLength n := by
  unfold varintEncodingLength
  split <;> [skip; split] <;> [omega; omega; split <;> omega]

theorem varintEncode_length (n : Nat) :
    (varintEncode n).length = varintEncodingLength n := by
  unfold varintEncode varintEncodingLength
  split <;> [rfl; split] <;> [rfl; split <;> rfl]

theorem varintDecode_encode (n : Nat) (rest : List Nat)
    (h : n < 18446744073709551616) :
    varintDecode (varintEncode n ++ rest) = .ok n := by
  unfold varintEncode
  split
  · next h1 =>
    simp only [List.cons_append, varintDecode, if_pos h1]
  · next h1 =>
    split
    · next h2 =>
      simp only [u16LE, List.cons_append, List.nil_append, varintDecode]
      rw [if_neg (by omega), if_pos trivial]
      congr 1
      omega
    · next h2 =>
      split
      · next h3 =>
        simp only [u32LE, List.cons_append, List.nil_append, varintDecode]
        rw [if_neg (by omega), if_neg (by omega), if_pos trivial]
        congr 1
        omega
      · next h3 =>
        simp only [u64LE, List.cons_append, List.nil_append, varintDecode]
        rw [if_neg (by omega), if_neg (by omega), if_neg (by omega)]
        congr 1
        omega

theorem ok_bind {α β : Type} (a : α) (f : α → Except PErr β) :
    (Except.ok a >>= f) = f a := rfl

theorem error_bind {α β : Type} (e : PErr) (f : α → Except PErr β) :
    ((Except.error e : Except PErr α) >>= f) = .error e := rfl

/-! ## Field registry

Modelled from the spec: `fields.ts`' numeric field-type registry, "maps
symbolic field names to the numeric type codes used on the wire".
The codes are those mandated by the PSET specification (PSBTv2 output
key types and the Elements confidential proprietary sub-types). -/

namespace OutputTypes

def REDEEM_SCRIPT : Nat := 0
def WITNESS_SCRIPT : Nat := 1
def BIP32_DERIVATION : Nat := 2
def AMOUNT : Nat := 3
def SCRIPT : Nat := 4
def TAP_INTERNAL_KEY : Nat := 5
def TAP_TREE : Nat := 6
def TAP_BIP32_DERIVATION : Nat := 7
def PROPRIETARY : Nat := 252

end OutputTypes

namespace OutputProprietaryTypes

def VALUE_COMMITMENT : Nat := 1
def ASSET : Nat := 2
def ASSET_COMMITMENT : Nat := 3
def VALUE_RANGEPROOF : Nat := 4
def ASSET_SURJECTION_PROOF : Nat := 5
def BLINDING_PUBKEY : Nat := 6
def ECDH_PUBKEY : Nat := 7
def BLINDER_INDEX : Nat := 8
def BLIND_VALUE_PROOF : Nat := 9
def BLIND_ASSET_PROOF : Nat := 10

end OutputProprietaryTypes

/-- Modelled from the spec: `pset.ts`' `magicPrefix`, "this format's
registered prefix" for proprietary keys (the ASCII bytes of `pset`). -/
def magicPrefix : List Nat := [112, 115, 101, 116]

/-! ## Key/value pairs

Modelled from the spec: `key_pair.ts`, "ordered sequence of (key-type,
key-data, value) triples terminated by a zero-length key". The decoder
is modelled at the key/value-pair level: the stream is a `List KeyPair`
whose end plays the empty-key terminator (`ErrEmptyKey`). -/

structure Key where
  keyType : Nat
  keyData : List Nat := []
deriving DecidableEq, Repr

structure KeyPair where
  key : Key
  value : List Nat
deriving DecidableEq, Repr

/-! ## Interfaces (`interfaces.ts`) -/

structure TapLeaf where
  depth : Nat
  leafVersion : Nat
  script : List Nat
deriving DecidableEq, Repr

structure TapTree where
  leaves : List TapLeaf
deriving DecidableEq, Repr

structure Bip32Derivation where
  pubkey : List Nat
  masterFingerprint : List Nat
  path : List Nat
deriving DecidableEq, Repr

structure TapBip32Derivation where
  pubkey : List Nat
  masterFingerprint : List Nat
  path : List Nat
  leafHashes : List (List Nat)
deriving DecidableEq, Repr

/-! ## BIP32 derivation codec

Modelled from the spec: `bip32.ts`' `decodeBip32Derivation` /
`encodeBIP32Derivation`, "encodes/decodes a (master-fingerprint,
derivation-path) pair": a 4-byte fingerprint followed by the path's
components as little-endian u32s. -/

/-- Split a byte list into little-endian u32 components (trailing partial
chunks are ignored). -/
def u32Chunks : List Nat → List Nat
  | b0 :: b1 :: b2 :: b3 :: rest =>
    (b0 + 256 * b1 + 65536 * b2 + 16777216 * b3) :: u32Chunks rest
  | _ => []

/-- Modelled from the spec: `decodeBip32Derivation`, returning
(masterFingerprint, path). -/
def decodeBip32Derivation (v : List Nat) : List Nat × List Nat :=
  (v.take 4, u32Chunks (v.drop 4))

/-- Modelled from the spec: `encodeBIP32Derivation`. -/
def encodeBIP32Derivation (fp : List Nat) (path : List Nat) : List Nat :=
  fp ++ (path.map u32LE).flatten

theorem u32Chunks_flatten (path : List Nat) (h : ∀ c ∈ path, c < 4294967296) :
    u32Chunks ((path.map u32LE).flatten) = path := by
  induction path with
  | nil => rfl
  | cons c t ih =>
    have hc : c < 4294967296 := h c (by simp)
    simp only [List.map_cons, List.flatten, u32LE, List.cons_append,
      List.nil_append, u32Chunks]
    refine congrArg₂ _ (by omega) ?_
    exact ih fun x hx => h x (by simp [hx])

theorem decodeBip32_encode (fp : List Nat) (path : List Nat)
    (hfp : fp.length = 4) (hpath : ∀ c ∈ path, c < 4294967296) :
    decodeBip32Derivation (encodeBIP32Derivation fp path) = (fp, path) := by
  unfold decodeBip32Derivation encodeBIP32Derivation
  rw [List.take_left' hfp, List.drop_left' hfp, u32Chunks_flatten path hpath]

/-! ## Taproot tree codec (`output.ts` lines 120-138 and 415-426)

Decode: "repeatedly read depth (1 byte), leaf version (1 byte), a
varint-encoded script length, then that many script bytes, appending a
leaf record, until the value buffer is exhausted". The source's cursor
`_offset` over `kp.value` is modelled by recursing on the remaining
bytes: the loop guard `_offset < kp.value.length` is `remaining ≠ []`.
`kp.value.slice(_offset, _offset + scriptLen)` clamps to the end of the
buffer, hence the `List.take`. Reading `leafVersion` past the end of the
buffer yields JavaScript `undefined`; that case always continues into an
out-of-bounds varint read, so the decoder errors before such a leaf
could be produced, and the `getD 0 0` default is never observable. -/

def decodeTapLeaves : List Nat → Except PErr (List TapLeaf)
  | [] => .ok []
  | depth :: rest =>
    match varintDecode (rest.drop 1) with
    | .error e => .error e
    | .ok scriptLen =>
      match decodeTapLeaves (rest.drop (1 + varintEncodingLength scriptLen + scriptLen)) with
      | .error e => .error e
      | .ok tail =>
        .ok (⟨depth, rest.getD 0 0,
          (rest.drop (1 + varintEncodingLength scriptLen)).take scriptLen⟩ :: tail)
termination_by v => v.length
decreasing_by
  simp only [List.length_drop, List.length_cons]
  omega

/-- Encoder for one leaf (`Buffer.of(depth, leafVersion)` truncates each
argument to a byte, then `varuint.encode(script.length)`, then the script). -/
def encodeTapLeaf (lf : TapLeaf) : List Nat :=
  lf.depth % 256 :: lf.leafVersion % 256 :: (varintEncode lf.script.length ++ lf.script)

/-- The TAP_TREE value emitted by `getKeyPairs`: the concatenation of the
leaves' encodings in stored order. -/
def encodeTapLeaves (ls : List TapLeaf) : List Nat :=
  (ls.map encodeTapLeaf).flatten

/-- Decidable well-formedness of a tap leaf for the round trip: depth and
leaf version fit in a byte, script length fits in a u64. -/
def wfTapLeaf (lf : TapLeaf) : Bool :=
  decide (lf.depth < 256) && decide (lf.leafVersion < 256) &&
    decide (lf.script.length < 18446744073709551616)

theorem decodeTapLeaves_encode (ls : List TapLeaf)
    (h : ∀ lf ∈ ls, wfTapLeaf lf = true) :
    decodeTapLeaves (encodeTapLeaves ls) = .ok ls := by
  induction ls with
  | nil =>
    rw [show encodeTapLeaves [] = [] from rfl, decodeTapLeaves]
  | cons lf t ih =>
    have hlf := h lf (by simp)
    simp only [wfTapLeaf, Bool.and_eq_true, decide_eq_true_eq] at hlf
    obtain ⟨⟨hd, hv⟩, hs⟩ := hlf
    have henc : encodeTapLeaves (lf :: t) =
        lf.depth % 256 :: (lf.leafVersion % 256 ::
          (varintEncode lf.script.length ++ (lf.script ++ encodeTapLeaves t))) := by
      simp [encodeTapLeaves, encodeTapLeaf, List.append_assoc]
    have hrest : ∀ k : Nat,
        ((lf.leafVersion % 256 ::
          (varintEncode lf.script.length ++ (lf.script ++ encodeTapLeaves t))).drop
            (1 + varintEncodingLength lf.script.length + k))
        = (lf.script ++ encodeTapLeaves t).drop k := by
      intro k
      rw [show 1 + varintEncodingLength lf.script.length + k =
        varintEncodingLength lf.script.length + k + 1 by omega]
      rw [List.drop_succ_cons, ← List.drop_drop,
        List.drop_left' (varintEncode_length lf.script.length)]
    have hrest0 : ((lf.leafVersion % 256 ::
        (varintEncode lf.script.length ++ (lf.script ++ encodeTapLeaves t))).drop
          (1 + varintEncodingLength lf.script.length))
        = lf.script ++ encodeTapLeaves t := by
      have h0 := hrest 0
      simpa using h0
    have hih := ih fun x hx => h x (by simp [hx])
    rw [henc, decodeTapLeaves]
    rw [show ((lf.leafVersion % 256 ::
        (varintEncode lf.script.length ++ (lf.script ++ encodeTapLeaves t))).drop 1)
      = varintEncode lf.script.length ++ (lf.script ++ encodeTapLeaves t) from rfl]
    rw [varintDecode_encode lf.script.length _ hs]
    simp only [hrest lf.script.length, hrest0, List.drop_left, List.take_left,
      List.getD_cons_zero, hih]
    simp only [Nat.mod_eq_of_lt hd, Nat.mod_eq_of_lt hv]


/-! ## Proprietary envelope

Modelled from the spec: `proprietary_data.ts`, "Proprietary envelope
layout: `identifier` (format "magic" prefix bytes) + `sub-type` (single
type code from the confidential-field sub-registry) + optional
key-suffix bytes, wrapped inside a `PROPRIETARY`-typed outer key", with
the identifier length-prefixed by a varint as in the PSET specification. -/

structure ProprietaryData where
  identifier : List Nat
  subType : Nat
  keyData : List Nat
  value : List Nat
deriving DecidableEq, Repr

/-- Modelled from the spec: `ProprietaryData.fromKeyPair` unwraps the
proprietary envelope from the outer key's key data. -/
def ProprietaryData.fromKeyPair (kp : KeyPair) : Except PErr ProprietaryData :=
  match varintDecode kp.key.keyData with
  | .error e => .error e
  | .ok identLen =>
    let rest := kp.key.keyData.drop (varintEncodingLength identLen)
    match varintDecode (rest.drop identLen) with
    | .error e => .error e
    | .ok subType =>
      .ok ⟨rest.take identLen, subType,
        (rest.drop identLen).drop (varintEncodingLength subType), kp.value⟩

/-- Modelled from the spec: `ProprietaryData.proprietaryKey` builds the
key data of a proprietary key for this format's magic prefix. -/
def ProprietaryData.proprietaryKey (subType : Nat) (suffix : List Nat := []) : List Nat :=
  varintEncode magicPrefix.length ++ magicPrefix ++ varintEncode subType ++ suffix

theorem fromKeyPair_proprietaryKey (keyType subType : Nat) (suffix v : List Nat)
    (hsub : subType < 18446744073709551616) :
    ProprietaryData.fromKeyPair
        ⟨⟨keyType, ProprietaryData.proprietaryKey subType suffix⟩, v⟩ =
      .ok ⟨magicPrefix, subType, suffix, v⟩ := by
  have hk : ProprietaryData.proprietaryKey subType suffix =
      varintEncode 4 ++ (magicPrefix ++ (varintEncode subType ++ suffix)) := by
    simp [ProprietaryData.proprietaryKey, magicPrefix, List.append_assoc]
  unfold ProprietaryData.fromKeyPair
  simp only [hk]
  rw [varintDecode_encode 4 _ (by omega)]
  have hdrop : (varintEncode 4 ++ (magicPrefix ++ (varintEncode subType ++ suffix))).drop
      (varintEncodingLength 4) = magicPrefix ++ (varintEncode subType ++ suffix) :=
    List.drop_left' (varintEncode_length 4)
  have hmp : magicPrefix.length = 4 := rfl
  simp only [hdrop, List.drop_left' hmp, List.take_left' hmp,
    varintDecode_encode subType _ hsub,
    List.drop_left' (varintEncode_length subType)]

/-! ## The output record (`PsetOutput`)

Mirrors the field list of `output.ts` lines 267-286; optional fields are
`Option`, and the `new PsetOutput()` defaults (`value = 0`,
`asset = Buffer.from([])`, everything else unset) are the field
defaults. -/

structure PsetOutput where
  redeemScript : Option (List Nat) := none
  witnessScript : Option (List Nat) := none
  bip32Derivation : Option (List Bip32Derivation) := none
  value : Nat := 0
  script : Option (List Nat) := none
  tapBip32Derivation : Option (List TapBip32Derivation) := none
  tapTree : Option TapTree := none
  tapInternalKey : Option (List Nat) := none
  valueCommitment : Option (List Nat) := none
  asset : Option (List Nat) := some []
  assetCommitment : Option (List Nat) := none
  valueRangeproof : Option (List Nat) := none
  assetSurjectionProof : Option (List Nat) := none
  blindingPubkey : Option (List Nat) := none
  ecdhPubkey : Option (List Nat) := none
  blinderIndex : Option Nat := none
  blindValueProof : Option (List Nat) := none
  blindAssetProof : Option (List Nat) := none
  proprietaryData : Option (List ProprietaryData) := none
  unknowns : Option (List KeyPair) := none
deriving DecidableEq, Repr

/-- The record `fromBuffer` starts from: `new PsetOutput()`. -/
def PsetOutput.initial : PsetOutput := {}

/-- The JavaScript truthiness test `x && x.length > 0` used throughout
`output.ts` for optional byte fields: defined and non-empty. -/
def isSet (o : Option (List Nat)) : Bool :=
  match o with
  | none => false
  | some l => decide (0 < l.length)

/-- `needsBlinding` (`output.ts` lines 328-330). -/
def PsetOutput.needsBlinding (o : PsetOutput) : Bool :=
  isSet o.blindingPubkey

/-- `isPartiallyBlinded` (`output.ts` lines 332-340). -/
def PsetOutput.isPartiallyBlinded (o : PsetOutput) : Bool :=
  isSet o.valueCommitment || isSet o.assetCommitment || isSet o.valueRangeproof ||
    isSet o.assetSurjectionProof || isSet o.ecdhPubkey

/-- `isFullyBlinded` (`output.ts` lines 342-354). The source's oddly
parenthesized surjection-proof conjunct
`(proof && proof.length) > 0` evaluates to the same
"defined and non-empty" test: for an undefined field `undefined > 0` is
false, for a defined one the comparison is `length > 0`. -/
def PsetOutput.isFullyBlinded (o : PsetOutput) : Bool :=
  isSet o.valueCommitment && isSet o.assetCommitment && isSet o.valueRangeproof &&
    isSet o.assetSurjectionProof && isSet o.ecdhPubkey

/-- The value of the JavaScript expression `x && x.length > 0` computed
by `sanityCheck` for its `...Set` locals: `undefined` (`none`) when the
field is unset — `undefined && _` short-circuits to `undefined` — and
the boolean `x.length > 0` when the field is a defined buffer (buffers,
even empty ones, are truthy objects). The three values matter because
`sanityCheck` compares these locals with strict `!==`, under which
`undefined !== false` is true. -/
def setFlag (o : Option (List Nat)) : Option Bool :=
  match o with
  | none => none
  | some l => some (decide (0 < l.length))

theorem isSet_iff_setFlag (x : Option (List Nat)) :
    isSet x = true ↔ setFlag x = some true := by
  cases x with
  | none => simp [isSet, setFlag]
  | some l => simp [isSet, setFlag]

theorem setFlag_ne_of_isSet_ne {a b : Option (List Nat)} (h : isSet a ≠ isSet b) :
    setFlag a ≠ setFlag b := by
  intro heq
  apply h
  cases ha : isSet a
  · cases hb : isSet b
    · rfl
    · exact absurd ((isSet_iff_setFlag a).mpr (heq ▸ (isSet_iff_setFlag b).mp hb))
        (by rw [ha]; simp)
  · rw [(isSet_iff_setFlag b).mpr (heq ▸ (isSet_iff_setFlag a).mp ha)]

/-- `sanityCheck` (`output.ts` lines 294-326): the blinding invariant
checker, run at the end of decode. The `valueCommitSet !==
blindValueProofSet` and `assetCommitSet !== blindAssetProofSet` tests
are strict comparisons of `boolean | undefined` values, modelled as
inequality of `setFlag`s (so an unset field and a defined empty buffer
compare as different). In `!assetCommitSet && (!this.asset ||
this.asset.length === 0)` the negations collapse `undefined` and
`false`, hence the `isSet` forms there.
`this.blinderIndex! > 0` is false for an undefined index
(`undefined > 0`), hence the `getD 0`. -/
def PsetOutput.sanityCheck (o : PsetOutput) : Except PErr PsetOutput :=
  if 0 < o.value ∧ setFlag o.valueCommitment ≠ setFlag o.blindValueProof then
    .error .missingValueCommitmentOrProof
  else if isSet o.assetCommitment = false ∧ isSet o.asset = false then
    .error .missingAsset
  else if isSet o.asset = true ∧ setFlag o.assetCommitment ≠ setFlag o.blindAssetProof then
    .error .missingAssetCommitmentOrProof
  else if o.isPartiallyBlinded = true ∧ o.isFullyBlinded = false then
    .error .partiallyBlindedErr
  else if o.isFullyBlinded = true ∧ 0 < o.blinderIndex.getD 0 then
    .error .blinderIndexSet
  else .ok o

/-! ## The decoder (`PsetOutput.fromBuffer`, `output.ts` lines 32-265)

`fromBuffer` repeatedly reads one key/value pair and dispatches on its
key type; the empty-key terminator (`ErrEmptyKey`) ends the loop, at
which point `sanityCheck` runs. The pair stream read by the external
`KeyPair.fromBuffer` is modelled as a `List KeyPair`, the end of the
list playing the terminator. `processKeyPair` is the body of the
`switch`. -/

/-- The `OutputTypes.PROPRIETARY` case of the `fromBuffer` dispatch
(`output.ts` lines 149-256): the `if (Buffer.compare(data.identifier,
magicPrefix) === 0)` guard and the nested `switch (data.subType)`. The
source reads `kp.value` inside the switch; `data.value` is that same
buffer (`ProprietaryData.fromKeyPair` stores it verbatim). Note the
source has no `else` for a non-matching identifier: such a pair leaves
the record unchanged. -/
def processProprietary (output : PsetOutput) (data : ProprietaryData) : Except PErr PsetOutput :=
  if data.identifier = magicPrefix then
    if data.subType = OutputProprietaryTypes.VALUE_COMMITMENT then
      if isSet output.valueCommitment then .error (.duplicateField "value commitment")
      else if data.value.length ≠ 33 then .error (.invalidLength "value commitment")
      else .ok { output with valueCommitment := some data.value }
    else if data.subType = OutputProprietaryTypes.ASSET then
      if isSet output.asset then .error (.duplicateField "asset")
      else if data.value.length ≠ 32 then .error (.invalidLength "asset")
      else .ok { output with asset := some data.value }
    else if data.subType = OutputProprietaryTypes.ASSET_COMMITMENT then
      if isSet output.assetCommitment then .error (.duplicateField "asset commitment")
      else if data.value.length ≠ 33 then .error (.invalidLength "asset commitment")
      else .ok { output with assetCommitment := some data.value }
    else if data.subType = OutputProprietaryTypes.VALUE_RANGEPROOF then
      if isSet output.valueRangeproof then .error (.duplicateField "value range proof")
      else .ok { output with valueRangeproof := some data.value }
    else if data.subType = OutputProprietaryTypes.ASSET_SURJECTION_PROOF then
      if isSet output.assetSurjectionProof then
        .error (.duplicateField "asset surjection proof")
      else .ok { output with assetSurjectionProof := some data.value }
    else if data.subType = OutputProprietaryTypes.BLINDING_PUBKEY then
      if isSet output.blindingPubkey then .error (.duplicateField "blinding pubkey")
      else if data.value.length ≠ 33 then .error (.invalidLength "blinding pubkey")
      else .ok { output with blindingPubkey := some data.value }
    else if data.subType = OutputProprietaryTypes.ECDH_PUBKEY then
      if isSet output.ecdhPubkey then .error (.duplicateField "ecdh pubkey")
      else if data.value.length ≠ 33 then .error (.invalidLength "ecdh pubkey")
      else .ok { output with ecdhPubkey := some data.value }
    else if data.subType = OutputProprietaryTypes.BLINDER_INDEX then
      if output.blinderIndex.isSome then .error (.duplicateField "blinder index")
      else if data.value.length ≠ 4 then .error (.invalidLength "blinder index")
      else .ok { output with blinderIndex := some (readU32LE data.value) }
    else if data.subType = OutputProprietaryTypes.BLIND_VALUE_PROOF then
      if isSet output.blindValueProof then .error (.duplicateField "blind value proof")
      else .ok { output with blindValueProof := some data.value }
    else if data.subType = OutputProprietaryTypes.BLIND_ASSET_PROOF then
      if isSet output.blindAssetProof then .error (.duplicateField "blind asset proof")
      else .ok { output with blindAssetProof := some data.value }
    else
      .ok { output with
        proprietaryData := some (output.proprietaryData.getD [] ++ [data]) }
  else
    .ok output

def processKeyPair (output : PsetOutput) (kp : KeyPair) : Except PErr PsetOutput :=
  if kp.key.keyType = OutputTypes.REDEEM_SCRIPT then
    if isSet output.redeemScript then .error (.duplicateField "redeem script")
    else .ok { output with redeemScript := some kp.value }
  else if kp.key.keyType = OutputTypes.WITNESS_SCRIPT then
    if isSet output.witnessScript then .error (.duplicateField "witness script")
    else .ok { output with witnessScript := some kp.value }
  else if kp.key.keyType = OutputTypes.BIP32_DERIVATION then
    if kp.key.keyData.length ≠ 33 then .error (.invalidLength "bip32 pubkey")
    else
      let derivs := output.bip32Derivation.getD []
      if (derivs.find? fun d => d.pubkey == kp.key.keyData).isSome then
        .error (.duplicateField "bip32 derivation")
      else
        let fpPath := decodeBip32Derivation kp.value
        .ok { output with
          bip32Derivation := some (derivs ++ [⟨kp.key.keyData, fpPath.1, fpPath.2⟩]) }
  else if kp.key.keyType = OutputTypes.AMOUNT then
    if 0 < output.value then .error (.duplicateField "value")
    else if kp.value.length ≠ 8 then .error (.invalidLength "amount")
    else .ok { output with value := readU64LE kp.value }
  else if kp.key.keyType = OutputTypes.SCRIPT then
    if isSet output.script then .error (.duplicateField "script")
    else .ok { output with script := some kp.value }
  else if kp.key.keyType = OutputTypes.TAP_BIP32_DERIVATION then
    if kp.key.keyData.length ≠ 33 then .error (.invalidLength "taproot bip32 pubkey")
    else
      let derivs := output.tapBip32Derivation.getD []
      if (derivs.find? fun d => d.pubkey == kp.key.keyData).isSome then
        .error (.duplicateField "taproot bip32 derivation")
      else
        match varintDecode kp.value with
        | .error e => .error e
        | .ok nHashes =>
          let nHashesLen := varintEncodingLength nHashes
          let bip32Deriv := decodeBip32Derivation (kp.value.drop (nHashesLen + nHashes * 32))
          let leafHashes := (List.range nHashes).map fun i =>
            (kp.value.drop (nHashesLen + i * 32)).take 32
          .ok { output with
            tapBip32Derivation :=
              some (derivs ++ [⟨kp.key.keyData, bip32Deriv.1, bip32Deriv.2, leafHashes⟩]) }
  else if kp.key.keyType = OutputTypes.TAP_TREE then
    if output.tapTree.isSome then .error (.duplicateField "taproot tree")
    else
      match decodeTapLeaves kp.value with
      | .error e => .error e
      | .ok leaves => .ok { output with tapTree := some ⟨leaves⟩ }
  else if kp.key.keyType = OutputTypes.TAP_INTERNAL_KEY then
    if isSet output.tapInternalKey then .error (.duplicateField "taproot internal key")
    else if kp.value.length ≠ 32 then .error (.invalidLength "taproot internal key")
    else .ok { output with tapInternalKey := some kp.value }
  else if kp.key.keyType = OutputTypes.PROPRIETARY then
    match ProprietaryData.fromKeyPair kp with
    | .error e => .error e
    | .ok data => processProprietary output data
  else
    .ok { output with unknowns := some (output.unknowns.getD [] ++ [kp]) }

/-- The decode loop over the key/value pair stream. -/
def processAll (output : PsetOutput) : List KeyPair → Except PErr PsetOutput
  | [] => .ok output
  | kp :: rest =>
    match processKeyPair output kp with
    | .error e => .error e
    | .ok o => processAll o rest

/-- `PsetOutput.fromBuffer`: consume the whole pair stream starting from
`new PsetOutput()`, then run `sanityCheck`. -/
def fromKeyPairs (l : List KeyPair) : Except PErr PsetOutput :=
  match processAll PsetOutput.initial l with
  | .error e => .error e
  | .ok o => o.sanityCheck

theorem processAll_cons (o : PsetOutput) (kp : KeyPair) (rest : List KeyPair) :
    processAll o (kp :: rest) =
      match processKeyPair o kp with
      | .error e => .error e
      | .ok o' => processAll o' rest := rfl

theorem processAll_append (o : PsetOutput) (a b : List KeyPair) :
    processAll o (a ++ b) =
      match processAll o a with
      | .error e => .error e
      | .ok o' => processAll o' b := by
  induction a generalizing o with
  | nil => rfl
  | cons kp t ih =>
    simp only [List.cons_append, processAll_cons]
    cases processKeyPair o kp with
    | error e => rfl
    | ok o' => exact ih o'

theorem processAll_append_ok (o o' : PsetOutput) (a b : List KeyPair)
    (h : processAll o a = .ok o') :
    processAll o (a ++ b) = processAll o' b := by
  rw [processAll_append, h]

/-! ## The encoder (`PsetOutput.getKeyPairs`, `output.ts` lines 377-542)

A pure projection of the record to an ordered key/value pair list; one
definition per `push` site, concatenated in the source's emission
order. The source's final statement `keyPairs.concat(this.unknowns || [])`
calls `Array.prototype.concat`, which returns a new array that is
immediately discarded, so the returned list does not contain the
`unknowns` pairs. -/

/-- A proprietary pair for a named confidential field (empty key suffix). -/
def propPair (subType : Nat) (v : List Nat) : KeyPair :=
  ⟨⟨OutputTypes.PROPRIETARY, ProprietaryData.proprietaryKey subType⟩, v⟩

def redeemSeg (o : PsetOutput) : List KeyPair :=
  if isSet o.redeemScript then
    [⟨⟨OutputTypes.REDEEM_SCRIPT, []⟩, o.redeemScript.getD []⟩]
  else []

def witnessSeg (o : PsetOutput) : List KeyPair :=
  if isSet o.witnessScript then
    [⟨⟨OutputTypes.WITNESS_SCRIPT, []⟩, o.witnessScript.getD []⟩]
  else []

def bip32Seg (o : PsetOutput) : List KeyPair :=
  match o.bip32Derivation with
  | none => []
  | some l =>
    if 0 < l.length then
      l.map fun e => ⟨⟨OutputTypes.BIP32_DERIVATION, e.pubkey⟩,
        encodeBIP32Derivation e.masterFingerprint e.path⟩
    else []

def tapBip32Seg (o : PsetOutput) : List KeyPair :=
  match o.tapBip32Derivation with
  | none => []
  | some l =>
    if 0 < l.length then
      l.map fun e => ⟨⟨OutputTypes.TAP_BIP32_DERIVATION, e.pubkey⟩,
        varintEncode e.leafHashes.length ++ e.leafHashes.flatten ++
          encodeBIP32Derivation e.masterFingerprint e.path⟩
    else []

def tapTreeSeg (o : PsetOutput) : List KeyPair :=
  match o.tapTree with
  | none => []
  | some t => [⟨⟨OutputTypes.TAP_TREE, []⟩, encodeTapLeaves t.leaves⟩]

def tapInternalKeySeg (o : PsetOutput) : List KeyPair :=
  if isSet o.tapInternalKey then
    [⟨⟨OutputTypes.TAP_INTERNAL_KEY, []⟩, o.tapInternalKey.getD []⟩]
  else []

def amountSeg (o : PsetOutput) : List KeyPair :=
  [⟨⟨OutputTypes.AMOUNT, []⟩, u64LE o.value⟩]

def scriptSeg (o : PsetOutput) : List KeyPair :=
  [⟨⟨OutputTypes.SCRIPT, []⟩, o.script.getD []⟩]

def valueCommitmentSeg (o : PsetOutput) : List KeyPair :=
  if isSet o.valueCommitment then
    [propPair OutputProprietaryTypes.VALUE_COMMITMENT (o.valueCommitment.getD [])]
  else []

def assetCommitmentSeg (o : PsetOutput) : List KeyPair :=
  if isSet o.assetCommitment then
    [propPair OutputProprietaryTypes.ASSET_COMMITMENT (o.assetCommitment.getD [])]
  else []

def assetSeg (o : PsetOutput) : List KeyPair :=
  if isSet o.asset then
    [propPair OutputProprietaryTypes.ASSET (o.asset.getD [])]
  else []

def valueRangeproofSeg (o : PsetOutput) : List KeyPair :=
  if isSet o.valueRangeproof then
    [propPair OutputProprietaryTypes.VALUE_RANGEPROOF (o.valueRangeproof.getD [])]
  else []

def assetSurjectionProofSeg (o : PsetOutput) : List KeyPair :=
  if isSet o.assetSurjectionProof then
    [propPair OutputProprietaryTypes.ASSET_SURJECTION_PROOF (o.assetSurjectionProof.getD [])]
  else []

def blindingPubkeySeg (o : PsetOutput) : List KeyPair :=
  if isSet o.blindingPubkey then
    [propPair OutputProprietaryTypes.BLINDING_PUBKEY (o.blindingPubkey.getD [])]
  else []

def ecdhPubkeySeg (o : PsetOutput) : List KeyPair :=
  if isSet o.ecdhPubkey then
    [propPair OutputProprietaryTypes.ECDH_PUBKEY (o.ecdhPubkey.getD [])]
  else []

/-- The blinder index pair is always emitted; `let bi = 0;
if (this.blinderIndex! > 0) bi = this.blinderIndex!`. -/
def blinderIndexSeg (o : PsetOutput) : List KeyPair :=
  [propPair OutputProprietaryTypes.BLINDER_INDEX
    (u32LE (if 0 < o.blinderIndex.getD 0 then o.blinderIndex.getD 0 else 0))]

def blindValueProofSeg (o : PsetOutput) : List KeyPair :=
  if isSet o.blindValueProof then
    [propPair OutputProprietaryTypes.BLIND_VALUE_PROOF (o.blindValueProof.getD [])]
  else []

def blindAssetProofSeg (o : PsetOutput) : List KeyPair :=
  if isSet o.blindAssetProof then
    [propPair OutputProprietaryTypes.BLIND_ASSET_PROOF (o.blindAssetProof.getD [])]
  else []

def proprietarySeg (o : PsetOutput) : List KeyPair :=
  match o.proprietaryData with
  | none => []
  | some l =>
    if 0 < l.length then
      l.map fun d => ⟨⟨OutputTypes.PROPRIETARY,
        ProprietaryData.proprietaryKey d.subType d.keyData⟩, d.value⟩
    else []

def PsetOutput.getKeyPairs (o : PsetOutput) : List KeyPair :=
  redeemSeg o ++ witnessSeg o ++ bip32Seg o ++ tapBip32Seg o ++ tapTreeSeg o ++
    tapInternalKeySeg o ++ amountSeg o ++ scriptSeg o ++ valueCommitmentSeg o ++
    assetCommitmentSeg o ++ assetSeg o ++ valueRangeproofSeg o ++
    assetSurjectionProofSeg o ++ blindingPubkeySeg o ++ ecdhPubkeySeg o ++
    blinderIndexSeg o ++ blindValueProofSeg o ++ blindAssetProofSeg o ++
    proprietarySeg o


/-! ## Reduction lemmas for the proprietary dispatch -/

theorem fromKeyPair_parse (keyType : Nat) (ident : List Nat) (sub : Nat) (suffix v : List Nat)
    (hident : ident.length < 18446744073709551616) (hsub : sub < 18446744073709551616) :
    ProprietaryData.fromKeyPair
        ⟨⟨keyType, varintEncode ident.length ++ ident ++ varintEncode sub ++ suffix⟩, v⟩ =
      .ok ⟨ident, sub, suffix, v⟩ := by
  have hk : varintEncode ident.length ++ ident ++ varintEncode sub ++ suffix =
      varintEncode ident.length ++ (ident ++ (varintEncode sub ++ suffix)) := by
    simp [List.append_assoc]
  unfold ProprietaryData.fromKeyPair
  simp only [hk]
  rw [varintDecode_encode ident.length _ hident]
  have hdrop : (varintEncode ident.length ++ (ident ++ (varintEncode sub ++ suffix))).drop
      (varintEncodingLength ident.length) = ident ++ (varintEncode sub ++ suffix) :=
    List.drop_left' (varintEncode_length ident.length)
  simp only [hdrop, List.drop_left, List.take_left,
    varintDecode_encode sub _ hsub,
    List.drop_left' (varintEncode_length sub)]

theorem processKeyPair_prop (st : PsetOutput) (sub : Nat) (suffix v : List Nat)
    (hsub : sub < 18446744073709551616) :
    processKeyPair st
        ⟨⟨OutputTypes.PROPRIETARY, ProprietaryData.proprietaryKey sub suffix⟩, v⟩ =
      processProprietary st ⟨magicPrefix, sub, suffix, v⟩ := by
  unfold processKeyPair
  norm_num [OutputTypes.REDEEM_SCRIPT, OutputTypes.WITNESS_SCRIPT,
    OutputTypes.BIP32_DERIVATION, OutputTypes.AMOUNT, OutputTypes.SCRIPT,
    OutputTypes.TAP_BIP32_DERIVATION, OutputTypes.TAP_TREE,
    OutputTypes.TAP_INTERNAL_KEY, OutputTypes.PROPRIETARY,
    fromKeyPair_proprietaryKey _ _ _ _ hsub]

/-- The ten recognized confidential sub-types of the proprietary dispatch. -/
def isKnownOutputProprietaryType (sub : Nat) : Bool :=
  decide (sub = OutputProprietaryTypes.VALUE_COMMITMENT) ||
  decide (sub = OutputProprietaryTypes.ASSET) ||
  decide (sub = OutputProprietaryTypes.ASSET_COMMITMENT) ||
  decide (sub = OutputProprietaryTypes.VALUE_RANGEPROOF) ||
  decide (sub = OutputProprietaryTypes.ASSET_SURJECTION_PROOF) ||
  decide (sub = OutputProprietaryTypes.BLINDING_PUBKEY) ||
  decide (sub = OutputProprietaryTypes.ECDH_PUBKEY) ||
  decide (sub = OutputProprietaryTypes.BLINDER_INDEX) ||
  decide (sub = OutputProprietaryTypes.BLIND_VALUE_PROOF) ||
  decide (sub = OutputProprietaryTypes.BLIND_ASSET_PROOF)

theorem processProprietary_foreign (st : PsetOutput) (data : ProprietaryData)
    (hid : data.identifier ≠ magicPrefix) :
    processProprietary st data = .ok st := by
  unfold processProprietary
  rw [if_neg hid]

theorem processProprietary_default (st : PsetOutput) (data : ProprietaryData)
    (hid : data.identifier = magicPrefix)
    (hk : isKnownOutputProprietaryType data.subType = false) :
    processProprietary st data =
      .ok { st with proprietaryData := some (st.proprietaryData.getD [] ++ [data]) } := by
  simp only [isKnownOutputProprietaryType, Bool.or_eq_false_iff,
    decide_eq_false_iff_not] at hk
  obtain ⟨⟨⟨⟨⟨⟨⟨⟨⟨h1, h2⟩, h3⟩, h4⟩, h5⟩, h6⟩, h7⟩, h8⟩, h9⟩, h10⟩ := hk
  unfold processProprietary
  rw [if_pos hid, if_neg h1, if_neg h2, if_neg h3, if_neg h4, if_neg h5, if_neg h6,
    if_neg h7, if_neg h8, if_neg h9, if_neg h10]

theorem processProprietary_valueCommitment (st : PsetOutput) (suffix v : List Nat) :
    processProprietary st ⟨magicPrefix, OutputProprietaryTypes.VALUE_COMMITMENT, suffix, v⟩ =
      if isSet st.valueCommitment then .error (.duplicateField "value commitment")
      else if v.length ≠ 33 then .error (.invalidLength "value commitment")
      else .ok { st with valueCommitment := some v } := by
  unfold processProprietary
  norm_num [OutputProprietaryTypes.VALUE_COMMITMENT, OutputProprietaryTypes.ASSET, OutputProprietaryTypes.ASSET_COMMITMENT, OutputProprietaryTypes.VALUE_RANGEPROOF, OutputProprietaryTypes.ASSET_SURJECTION_PROOF, OutputProprietaryTypes.BLINDING_PUBKEY, OutputProprietaryTypes.ECDH_PUBKEY, OutputProprietaryTypes.BLINDER_INDEX, OutputProprietaryTypes.BLIND_VALUE_PROOF, OutputProprietaryTypes.BLIND_ASSET_PROOF]

theorem processProprietary_asset (st : PsetOutput) (suffix v : List Nat) :
    processProprietary st ⟨magicPrefix, OutputProprietaryTypes.ASSET, suffix, v⟩ =
      if isSet st.asset then .error (.duplicateField "asset")
      else if v.length ≠ 32 then .error (.invalidLength "asset")
      else .ok { st with asset := some v } := by
  unfold processProprietary
  norm_num [OutputProprietaryTypes.VALUE_COMMITMENT, OutputProprietaryTypes.ASSET, OutputProprietaryTypes.ASSET_COMMITMENT, OutputProprietaryTypes.VALUE_RANGEPROOF, OutputProprietaryTypes.ASSET_SURJECTION_PROOF, OutputProprietaryTypes.BLINDING_PUBKEY, OutputProprietaryTypes.ECDH_PUBKEY, OutputProprietaryTypes.BLINDER_INDEX, OutputProprietaryTypes.BLIND_VALUE_PROOF, OutputProprietaryTypes.BLIND_ASSET_PROOF]

theorem processProprietary_assetCommitment (st : PsetOutput) (suffix v : List Nat) :
    processProprietary st ⟨magicPrefix, OutputProprietaryTypes.ASSET_COMMITMENT, suffix, v⟩ =
      if isSet st.assetCommitment then .error (.duplicateField "asset commitment")
      else if v.length ≠ 33 then .error (.invalidLength "asset commitment")
      else .ok { st with assetCommitment := some v } := by
  unfold processProprietary
  norm_num [OutputProprietaryTypes.VALUE_COMMITMENT, OutputProprietaryTypes.ASSET, OutputProprietaryTypes.ASSET_COMMITMENT, OutputProprietaryTypes.VALUE_RANGEPROOF, OutputProprietaryTypes.ASSET_SURJECTION_PROOF, OutputProprietaryTypes.BLINDING_PUBKEY, OutputProprietaryTypes.ECDH_PUBKEY, OutputProprietaryTypes.BLINDER_INDEX, OutputProprietaryTypes.BLIND_VALUE_PROOF, OutputProprietaryTypes.BLIND_ASSET_PROOF]

theorem processProprietary_valueRangeproof (st : PsetOutput) (suffix v : List Nat) :
    processProprietary st ⟨magicPrefix, OutputProprietaryTypes.VALUE_RANGEPROOF, suffix, v⟩ =
      if isSet st.valueRangeproof then .error (.duplicateField "value range proof")
      else .ok { st with valueRangeproof := some v } := by
  unfold processProprietary
  norm_num [OutputProprietaryTypes.VALUE_COMMITMENT, OutputProprietaryTypes.ASSET, OutputProprietaryTypes.ASSET_COMMITMENT, OutputProprietaryTypes.VALUE_RANGEPROOF, OutputProprietaryTypes.ASSET_SURJECTION_PROOF, OutputProprietaryTypes.BLINDING_PUBKEY, OutputProprietaryTypes.ECDH_PUBKEY, OutputProprietaryTypes.BLINDER_INDEX, OutputProprietaryTypes.BLIND_VALUE_PROOF, OutputProprietaryTypes.BLIND_ASSET_PROOF]

theorem processProprietary_assetSurjectionProof (st : PsetOutput) (suffix v : List Nat) :
    processProprietary st ⟨magicPrefix, OutputProprietaryTypes.ASSET_SURJECTION_PROOF, suffix, v⟩ =
      if isSet st.assetSurjectionProof then .error (.duplicateField "asset surjection proof")
      else .ok { st with assetSurjectionProof := some v } := by
  unfold processProprietary
  norm_num [OutputProprietaryTypes.VALUE_COMMITMENT, OutputProprietaryTypes.ASSET, OutputProprietaryTypes.ASSET_COMMITMENT, OutputProprietaryTypes.VALUE_RANGEPROOF, OutputProprietaryTypes.ASSET_SURJECTION_PROOF, OutputProprietaryTypes.BLINDING_PUBKEY, OutputProprietaryTypes.ECDH_PUBKEY, OutputProprietaryTypes.BLINDER_INDEX, OutputProprietaryTypes.BLIND_VALUE_PROOF, OutputProprietaryTypes.BLIND_ASSET_PROOF]

theorem processProprietary_blindingPubkey (st : PsetOutput) (suffix v : List Nat) :
    processProprietary st ⟨magicPrefix, OutputProprietaryTypes.BLINDING_PUBKEY, suffix, v⟩ =
      if isSet st.blindingPubkey then .error (.duplicateField "blinding pubkey")
      else if v.length ≠ 33 then .error (.invalidLength "blinding pubkey")
      else .ok { st with blindingPubkey := some v } := by
  unfold processProprietary
  norm_num [OutputProprietaryTypes.VALUE_COMMITMENT, OutputProprietaryTypes.ASSET, OutputProprietaryTypes.ASSET_COMMITMENT, OutputProprietaryTypes.VALUE_RANGEPROOF, OutputProprietaryTypes.ASSET_SURJECTION_PROOF, OutputProprietaryTypes.BLINDING_PUBKEY, OutputProprietaryTypes.ECDH_PUBKEY, OutputProprietaryTypes.BLINDER_INDEX, OutputProprietaryTypes.BLIND_VALUE_PROOF, OutputProprietaryTypes.BLIND_ASSET_PROOF]

theorem processProprietary_ecdhPubkey (st : PsetOutput) (suffix v : List Nat) :
    processProprietary st ⟨magicPrefix, OutputProprietaryTypes.ECDH_PUBKEY, suffix, v⟩ =
      if isSet st.ecdhPubkey then .error (.duplicateField "ecdh pubkey")
      else if v.length ≠ 33 then .error (.invalidLength "ecdh pubkey")
      else .ok { st with ecdhPubkey := some v } := by
  unfold processProprietary
  norm_num [OutputProprietaryTypes.VALUE_COMMITMENT, OutputProprietaryTypes.ASSET, OutputProprietaryTypes.ASSET_COMMITMENT, OutputProprietaryTypes.VALUE_RANGEPROOF, OutputProprietaryTypes.ASSET_SURJECTION_PROOF, OutputProprietaryTypes.BLINDING_PUBKEY, OutputProprietaryTypes.ECDH_PUBKEY, OutputProprietaryTypes.BLINDER_INDEX, OutputProprietaryTypes.BLIND_VALUE_PROOF, OutputProprietaryTypes.BLIND_ASSET_PROOF]

theorem processProprietary_blinderIndex (st : PsetOutput) (suffix v : List Nat) :
    processProprietary st ⟨magicPrefix, OutputProprietaryTypes.BLINDER_INDEX, suffix, v⟩ =
      if st.blinderIndex.isSome then .error (.duplicateField "blinder index")
      else if v.length ≠ 4 then .error (.invalidLength "blinder index")
      else .ok { st with blinderIndex := some (readU32LE v) } := by
  unfold processProprietary
  norm_num [OutputProprietaryTypes.VALUE_COMMITMENT, OutputProprietaryTypes.ASSET, OutputProprietaryTypes.ASSET_COMMITMENT, OutputProprietaryTypes.VALUE_RANGEPROOF, OutputProprietaryTypes.ASSET_SURJECTION_PROOF, OutputProprietaryTypes.BLINDING_PUBKEY, OutputProprietaryTypes.ECDH_PUBKEY, OutputProprietaryTypes.BLINDER_INDEX, OutputProprietaryTypes.BLIND_VALUE_PROOF, OutputProprietaryTypes.BLIND_ASSET_PROOF]

theorem processProprietary_blindValueProof (st : PsetOutput) (suffix v : List Nat) :
    processProprietary st ⟨magicPrefix, OutputProprietaryTypes.BLIND_VALUE_PROOF, suffix, v⟩ =
      if isSet st.blindValueProof then .error (.duplicateField "blind value proof")
      else .ok { st with blindValueProof := some v } := by
  unfold processProprietary
  norm_num [OutputProprietaryTypes.VALUE_COMMITMENT, OutputProprietaryTypes.ASSET, OutputProprietaryTypes.ASSET_COMMITMENT, OutputProprietaryTypes.VALUE_RANGEPROOF, OutputProprietaryTypes.ASSET_SURJECTION_PROOF, OutputProprietaryTypes.BLINDING_PUBKEY, OutputProprietaryTypes.ECDH_PUBKEY, OutputProprietaryTypes.BLINDER_INDEX, OutputProprietaryTypes.BLIND_VALUE_PROOF, OutputProprietaryTypes.BLIND_ASSET_PROOF]

theorem processProprietary_blindAssetProof (st : PsetOutput) (suffix v : List Nat) :
    processProprietary st ⟨magicPrefix, OutputProprietaryTypes.BLIND_ASSET_PROOF, suffix, v⟩ =
      if isSet st.blindAssetProof then .error (.duplicateField "blind asset proof")
      else .ok { st with blindAssetProof := some v } := by
  unfold processProprietary
  norm_num [OutputProprietaryTypes.VALUE_COMMITMENT, OutputProprietaryTypes.ASSET, OutputProprietaryTypes.ASSET_COMMITMENT, OutputProprietaryTypes.VALUE_RANGEPROOF, OutputProprietaryTypes.ASSET_SURJECTION_PROOF, OutputProprietaryTypes.BLINDING_PUBKEY, OutputProprietaryTypes.ECDH_PUBKEY, OutputProprietaryTypes.BLINDER_INDEX, OutputProprietaryTypes.BLIND_VALUE_PROOF, OutputProprietaryTypes.BLIND_ASSET_PROOF]

/-! ## Small-step helpers for concrete decodes -/

theorem processAll_cons_ok (o o' : PsetOutput) (kp : KeyPair) (rest : List KeyPair)
    (h : processKeyPair o kp = .ok o') :
    processAll o (kp :: rest) = processAll o' rest := by
  rw [processAll_cons, h]

theorem processAll_cons_error (o : PsetOutput) (e : PErr) (kp : KeyPair)
    (rest : List KeyPair) (h : processKeyPair o kp = .error e) :
    processAll o (kp :: rest) = .error e := by
  rw [processAll_cons, h]

theorem decodeTapLeaves_nil : decodeTapLeaves [] = .ok [] := by
  rw [decodeTapLeaves]

theorem decodeTapLeaves_cons_ok (d slen : Nat) (rest : List Nat)
    (h : varintDecode (rest.drop 1) = .ok slen) :
    decodeTapLeaves (d :: rest) =
      match decodeTapLeaves (rest.drop (1 + varintEncodingLength slen + slen)) with
      | .error e => .error e
      | .ok tail =>
        .ok (⟨d, rest.getD 0 0,
          (rest.drop (1 + varintEncodingLength slen)).take slen⟩ :: tail) := by
  rw [decodeTapLeaves, h]

/-! ## Claims about the invariant checker (C5-C8) -/

/-- C5 counterexample: with `value = 1`, `valueCommitment` unset and
`blindValueProof` a defined empty buffer, both fields are absent in the
claim's present-means-non-empty sense, yet `sanityCheck` fails with the
value-pairing error: the source compares `undefined !== false` with
strict inequality, which is true. -/
theorem c5_counterexample :
    ({ value := 1, blindValueProof := some [] } : PsetOutput).sanityCheck
        = .error .missingValueCommitmentOrProof ∧
    isSet ({ value := 1, blindValueProof := some [] } : PsetOutput).valueCommitment
        = isSet ({ value := 1, blindValueProof := some [] } : PsetOutput).blindValueProof := by
  constructor
  · decide
  · decide

/-- C5 (amended): for every record with `value > 0`, `sanityCheck`
fails with the inconsistent-blinding-state error
`missingValueCommitmentOrProof` exactly when the JavaScript set-flags of
`valueCommitment` and `blindValueProof` differ (`undefined` when unset,
`length > 0` when defined) — in particular when exactly one of the two
is non-empty, but also when one is unset while the other is a defined
empty buffer; the error never fires when the flags agree (both
non-empty, both unset, or both defined and empty). -/
theorem c5_value_commitment_pairing :
    (∀ o : PsetOutput, 0 < o.value →
        setFlag o.valueCommitment ≠ setFlag o.blindValueProof →
        o.sanityCheck = .error .missingValueCommitmentOrProof) ∧
    (∀ o : PsetOutput, 0 < o.value →
        isSet o.valueCommitment ≠ isSet o.blindValueProof →
        o.sanityCheck = .error .missingValueCommitmentOrProof) ∧
    (∀ o : PsetOutput, setFlag o.valueCommitment = setFlag o.blindValueProof →
        o.sanityCheck ≠ .error .missingValueCommitmentOrProof) := by
  have h1 : ∀ o : PsetOutput, 0 < o.value →
      setFlag o.valueCommitment ≠ setFlag o.blindValueProof →
      o.sanityCheck = .error .missingValueCommitmentOrProof := by
    intro o hv hne
    unfold PsetOutput.sanityCheck
    rw [if_pos ⟨hv, hne⟩]
  refine ⟨h1, fun o hv hne => h1 o hv (setFlag_ne_of_isSet_ne hne), ?_⟩
  intro o heq
  unfold PsetOutput.sanityCheck
  split_ifs with g1 g2 g3 g4 g5 <;> simp_all

/-- C5 witness: a record with only the commitment non-empty fails, one
with only the proof non-empty fails, and one with both fields unset
does not trigger the value-pairing error. -/
theorem c5_witness :
    ({ value := 2, valueCommitment := some (List.replicate 33 2) } : PsetOutput).sanityCheck
        = .error .missingValueCommitmentOrProof ∧
    ({ value := 3, blindValueProof := some [7] } : PsetOutput).sanityCheck
        = .error .missingValueCommitmentOrProof ∧
    ({ value := 2 } : PsetOutput).sanityCheck ≠ .error .missingValueCommitmentOrProof :=
  ⟨c5_value_commitment_pairing.1 _ (by decide) (by decide),
   c5_value_commitment_pairing.2.1 _ (by decide) (by decide),
   c5_value_commitment_pairing.2.2 _ (by decide)⟩

/-- C6 counterexample: with a non-empty 32-byte asset, `assetCommitment`
unset and `blindAssetProof` a defined empty buffer, neither field is
present in the claim's non-empty sense — so (assetCommitment present) ==
(blindAssetProof present) holds — yet `sanityCheck` fails with the
inconsistent-blinding-state asset-pairing error, because the source's
strict `assetCommitSet !== blindAssetProofSet` compares
`undefined !== false`, which is true. -/
theorem c6_counterexample :
    ({ asset := some (List.replicate 32 1), blindAssetProof := some [] } : PsetOutput).sanityCheck
        = .error .missingAssetCommitmentOrProof ∧
    isSet ({ asset := some (List.replicate 32 1),
             blindAssetProof := some [] } : PsetOutput).assetCommitment
        = isSet ({ asset := some (List.replicate 32 1),
                   blindAssetProof := some [] } : PsetOutput).blindAssetProof := by
  constructor
  · decide
  · decide

/-- C6 (amended): `sanityCheck` enforces the asset rule through the
JavaScript set-flags (`undefined` when unset, `length > 0` when
defined): with no asset commitment and an absent-or-empty asset the
check always fails, and fails with the missing-asset error whenever the
earlier value check does not fire; with a non-empty asset it fails
whenever the set-flags of `assetCommitment` and `blindAssetProof`
differ — in particular when exactly one of the two is non-empty, but
also when one is unset while the other is a defined empty buffer — and
the asset-pairing error never fires when those flags agree. -/
theorem c6_asset_rules :
    (∀ o : PsetOutput, isSet o.assetCommitment = false → isSet o.asset = false →
        ∀ R, o.sanityCheck ≠ .ok R) ∧
    (∀ o : PsetOutput, isSet o.assetCommitment = false → isSet o.asset = false →
        ¬(0 < o.value ∧ setFlag o.valueCommitment ≠ setFlag o.blindValueProof) →
        o.sanityCheck = .error .missingAsset) ∧
    (∀ o : PsetOutput, isSet o.asset = true →
        setFlag o.assetCommitment ≠ setFlag o.blindAssetProof →
        ∀ R, o.sanityCheck ≠ .ok R) ∧
    (∀ o : PsetOutput, isSet o.asset = true →
        isSet o.assetCommitment ≠ isSet o.blindAssetProof →
        ∀ R, o.sanityCheck ≠ .ok R) ∧
    (∀ o : PsetOutput, setFlag o.assetCommitment = setFlag o.blindAssetProof →
        o.sanityCheck ≠ .error .missingAssetCommitmentOrProof) := by
  have h3 : ∀ o : PsetOutput, isSet o.asset = true →
      setFlag o.assetCommitment ≠ setFlag o.blindAssetProof →
      ∀ R, o.sanityCheck ≠ .ok R := by
    intro o ha hne R
    unfold PsetOutput.sanityCheck
    split_ifs with g1 g2 g3 g4 g5 <;> simp_all
  refine ⟨?_, ?_, h3, fun o ha hne R => h3 o ha (setFlag_ne_of_isSet_ne hne) R, ?_⟩
  · intro o hac ha R
    unfold PsetOutput.sanityCheck
    split_ifs with g1 g2 g3 g4 g5 <;> simp_all
  · intro o hac ha hv
    unfold PsetOutput.sanityCheck
    rw [if_neg hv, if_pos ⟨hac, ha⟩]
  · intro o heq
    unfold PsetOutput.sanityCheck
    split_ifs with g1 g2 g3 g4 g5 <;> simp_all

/-- C6 witness: the empty record (empty asset, no commitment) fails,
with `missingAsset`; a record with a non-empty asset fails both when
only the blind asset proof is non-empty (differing flags) and when only
the asset commitment is non-empty (differing presence); and with both
pairing fields unset the asset-pairing error does not fire. -/
theorem c6_witness :
    (PsetOutput.initial.sanityCheck ≠ .ok PsetOutput.initial) ∧
    (PsetOutput.initial.sanityCheck = .error .missingAsset) ∧
    (({ asset := some [1], blindAssetProof := some [2] } : PsetOutput).sanityCheck
        ≠ .ok { asset := some [1], blindAssetProof := some [2] }) ∧
    (({ asset := some [3], assetCommitment := some (List.replicate 33 5) } : PsetOutput).sanityCheck
        ≠ .ok { asset := some [3], assetCommitment := some (List.replicate 33 5) }) ∧
    (({ asset := some [1] } : PsetOutput).sanityCheck
        ≠ .error .missingAssetCommitmentOrProof) :=
  ⟨c6_asset_rules.1 _ (by decide) (by decide) _,
   c6_asset_rules.2.1 _ (by decide) (by decide) (by decide),
   c6_asset_rules.2.2.1 _ (by decide) (by decide) _,
   c6_asset_rules.2.2.2.1 _ (by decide) (by decide) _,
   c6_asset_rules.2.2.2.2 _ (by decide)⟩

/-- C7: a record that is partially blinded (at least one of the five
blinding fields set) but not fully blinded (not all five set) never
passes `sanityCheck`. -/
theorem c7_partially_blinded_rejected (o : PsetOutput)
    (hp : o.isPartiallyBlinded = true) (hf : o.isFullyBlinded = false) :
    ∃ e, o.sanityCheck = .error e := by
  unfold PsetOutput.sanityCheck
  split_ifs with h1 h2 h3 h4 h5
  · exact ⟨_, rfl⟩
  · exact ⟨_, rfl⟩
  · exact ⟨_, rfl⟩
  · exact ⟨_, rfl⟩
  · exact ⟨_, rfl⟩
  · exact absurd ⟨hp, hf⟩ h4

/-- C7 witness: a record with only `ecdhPubkey` set among the five
blinding fields fails the invariant check. -/
theorem c7_witness :
    ∃ e, ({ ecdhPubkey := some (List.replicate 33 2) } : PsetOutput).sanityCheck = .error e :=
  c7_partially_blinded_rejected _ (by decide) (by decide)

/-- A fully blinded key/value stream (all five blinding fields present)
followed by a BLINDER_INDEX pair carrying `bi`. -/
def c8Stream (bi : Nat) : List KeyPair :=
  [propPair OutputProprietaryTypes.VALUE_COMMITMENT (List.replicate 33 2),
   propPair OutputProprietaryTypes.ASSET_COMMITMENT (List.replicate 33 3),
   propPair OutputProprietaryTypes.VALUE_RANGEPROOF [1],
   propPair OutputProprietaryTypes.ASSET_SURJECTION_PROOF [1],
   propPair OutputProprietaryTypes.ECDH_PUBKEY (List.replicate 33 4),
   propPair OutputProprietaryTypes.BLINDER_INDEX (u32LE bi)]

/-- C8: a fully blinded record fails the invariant check whenever its
blinder index is positive, and the blinder-index error never fires when
the index is 0 or unset; concretely, decoding a fully blinded stream
with blinder index 5 fails with that error while the same stream with
index 0 decodes successfully. -/
theorem c8_full_blinding_blinder_index :
    (∀ o : PsetOutput, o.isFullyBlinded = true → 0 < o.blinderIndex.getD 0 →
        ∃ e, o.sanityCheck = .error e) ∧
    (∀ o : PsetOutput, o.isFullyBlinded = true → o.blinderIndex.getD 0 = 0 →
        o.sanityCheck ≠ .error .blinderIndexSet) ∧
    fromKeyPairs (c8Stream 5) = .error .blinderIndexSet ∧
    (fromKeyPairs (c8Stream 0)).map PsetOutput.blinderIndex = .ok (some 0) := by
  refine ⟨?_, ?_, by decide, by decide⟩
  · intro o hf hbi
    unfold PsetOutput.sanityCheck
    split_ifs with h1 h2 h3 h4 h5
    · exact ⟨_, rfl⟩
    · exact ⟨_, rfl⟩
    · exact ⟨_, rfl⟩
    · exact ⟨_, rfl⟩
    · exact ⟨_, rfl⟩
    · exact absurd ⟨hf, hbi⟩ h5
  · intro o hf hbi
    unfold PsetOutput.sanityCheck
    split_ifs with h1 h2 h3 h4 h5 <;> simp_all

/-- C8 witness: a concrete fully blinded record with index 5 fails; the
same record with index 0 does not trigger the blinder-index error. -/
theorem c8_witness :
    (∃ e, ({ valueCommitment := some (List.replicate 33 2),
             assetCommitment := some (List.replicate 33 3),
             valueRangeproof := some [1], assetSurjectionProof := some [1],
             ecdhPubkey := some (List.replicate 33 4),
             blinderIndex := some 5 } : PsetOutput).sanityCheck = .error e) ∧
    ({ valueCommitment := some (List.replicate 33 2),
       assetCommitment := some (List.replicate 33 3),
       valueRangeproof := some [1], assetSurjectionProof := some [1],
       ecdhPubkey := some (List.replicate 33 4),
       blinderIndex := some 0 } : PsetOutput).sanityCheck ≠ .error .blinderIndexSet :=
  ⟨c8_full_blinding_blinder_index.1 _ (by decide) (by decide),
   c8_full_blinding_blinder_index.2.1 _ (by decide) (by decide)⟩

/-! ## C9: taproot tree truncation -/

/-- C9 counterexample: a TAP_TREE value whose single leaf declares a
5-byte script but carries only 2 remaining bytes decodes successfully
with the script silently clamped to the available bytes, instead of
failing with a malformed-buffer error. -/
theorem c9_counterexample :
    decodeTapLeaves [1, 192, 5, 9, 9] = .ok [⟨1, 192, [9, 9]⟩] := by
  rw [decodeTapLeaves_cons_ok 1 5 [192, 5, 9, 9] rfl]
  norm_num [varintEncodingLength]
  rw [decodeTapLeaves_nil]

/-- C9 (amended): the taproot tree decoder reads no leaf count and stops
only on buffer exhaustion; a buffer truncated inside a leaf header
(missing the version byte or the script-length varint) is a
malformed-buffer error, but a final leaf whose declared script length
exceeds the remaining bytes decodes successfully with the script clamped
to what remains (`Buffer.slice` clamps); encoding then decoding any
well-formed leaf list returns it unchanged. -/
theorem c9_tap_tree_truncation :
    (∀ depth ver slen rest, slen < 253 → rest.length < slen →
        decodeTapLeaves (depth :: ver :: slen :: rest) = .ok [⟨depth, ver, rest⟩]) ∧
    (∀ depth : Nat, decodeTapLeaves [depth] = .error .malformedBuffer) ∧
    (∀ depth ver : Nat, decodeTapLeaves [depth, ver] = .error .malformedBuffer) ∧
    (∀ leaves, (∀ lf ∈ leaves, wfTapLeaf lf = true) →
        decodeTapLeaves (encodeTapLeaves leaves) = .ok leaves) := by
  refine ⟨?_, ?_, ?_, decodeTapLeaves_encode⟩
  · intro depth ver slen rest h1 h2
    have hv : varintDecode ((ver :: slen :: rest).drop 1) = .ok slen := by
      simp [varintDecode, h1]
    rw [decodeTapLeaves_cons_ok depth slen _ hv]
    have hel : varintEncodingLength slen = 1 := by simp [varintEncodingLength, h1]
    rw [hel]
    rw [show (1 + 1 + slen) = slen + 2 by omega]
    rw [show ((ver :: slen :: rest).drop (slen + 2)) = rest.drop slen by
      simp [List.drop_succ_cons]]
    rw [List.drop_eq_nil_of_le (le_of_lt h2), decodeTapLeaves_nil]
    simp [List.take_of_length_le (le_of_lt h2)]
  · intro depth
    rw [decodeTapLeaves]
    rfl
  · intro depth ver
    rw [decodeTapLeaves]
    rfl

/-- C9 witness: a leaf declaring 4 script bytes over a single remaining
byte decodes to that byte. -/
theorem c9_witness : decodeTapLeaves [7, 0, 4, 7] = .ok [⟨7, 0, [7]⟩] :=
  c9_tap_tree_truncation.1 7 0 4 [7] (by norm_num) (by norm_num)

/-! ## C10: blinder index duplicate detection -/

/-- C10: a stream whose first two pairs are BLINDER_INDEX proprietary
pairs with the magic identifier and 4-byte values always fails with the
duplicate-field error for the blinder index, whatever the first value
decoded to — including 0 — because the duplicate test is definedness
(`blinderIndex !== undefined`), not non-zeroness. -/
theorem c10_blinder_index_duplicate (v1 v2 : Nat) (rest : List KeyPair) :
    fromKeyPairs
        (propPair OutputProprietaryTypes.BLINDER_INDEX (u32LE v1) ::
          propPair OutputProprietaryTypes.BLINDER_INDEX (u32LE v2) :: rest) =
      .error (.duplicateField "blinder index") := by
  have h1 : processKeyPair PsetOutput.initial
      (propPair OutputProprietaryTypes.BLINDER_INDEX (u32LE v1)) =
      .ok { PsetOutput.initial with blinderIndex := some (readU32LE (u32LE v1)) } := by
    rw [propPair, processKeyPair_prop _ _ _ _ (by norm_num [OutputProprietaryTypes.BLINDER_INDEX]),
      processProprietary_blinderIndex]
    norm_num [PsetOutput.initial, u32LE]
  have h2 : processKeyPair
      { PsetOutput.initial with blinderIndex := some (readU32LE (u32LE v1)) }
      (propPair OutputProprietaryTypes.BLINDER_INDEX (u32LE v2)) =
      .error (.duplicateField "blinder index") := by
    rw [propPair, processKeyPair_prop _ _ _ _ (by norm_num [OutputProprietaryTypes.BLINDER_INDEX]),
      processProprietary_blinderIndex]
    norm_num
  unfold fromKeyPairs
  rw [processAll_cons_ok _ _ _ _ h1, processAll_cons_error _ _ _ _ h2]

/-! ## C2: duplicate AMOUNT detection -/

/-- C2 counterexample: a stream with two AMOUNT pairs whose first decodes
to 0 does not fail with a duplicate-field error; the second pair
silently overwrites the first and decode succeeds with value 7. -/
theorem c2_counterexample :
    (fromKeyPairs [⟨⟨OutputTypes.AMOUNT, []⟩, u64LE 0⟩, ⟨⟨OutputTypes.AMOUNT, []⟩, u64LE 7⟩,
        propPair OutputProprietaryTypes.ASSET (List.replicate 32 1)]).map
      PsetOutput.value = .ok 7 := by decide

/-- C2 (amended): a second AMOUNT pair fails decode with
`DuplicateField("value")` provided the first occurrence decoded to a
positive amount; the duplicate test is `value > 0`, so a zero first
amount (and likewise an empty first byte sequence for the
emptiness-tested byte fields) is not detected and is overwritten. -/
theorem c2_amount_duplicate (v1 v2 : Nat) (rest : List KeyPair)
    (hpos : 0 < v1) (hlt : v1 < 18446744073709551616) :
    fromKeyPairs
        (⟨⟨OutputTypes.AMOUNT, []⟩, u64LE v1⟩ ::
          ⟨⟨OutputTypes.AMOUNT, []⟩, u64LE v2⟩ :: rest) =
      .error (.duplicateField "value") := by
  have hv : readU64LE (u64LE v1) = v1 := by
    have h := readU64LE_u64LE v1 []
    rw [List.append_nil] at h
    rw [h, Nat.mod_eq_of_lt hlt]
  have ha : processKeyPair PsetOutput.initial ⟨⟨OutputTypes.AMOUNT, []⟩, u64LE v1⟩ =
      .ok { PsetOutput.initial with value := v1 } := by
    unfold processKeyPair
    norm_num [OutputTypes.REDEEM_SCRIPT, OutputTypes.WITNESS_SCRIPT,
      OutputTypes.BIP32_DERIVATION, OutputTypes.AMOUNT, PsetOutput.initial,
      u64LE_length, hv]
  have hb : processKeyPair { PsetOutput.initial with value := v1 }
      ⟨⟨OutputTypes.AMOUNT, []⟩, u64LE v2⟩ = .error (.duplicateField "value") := by
    unfold processKeyPair
    norm_num [OutputTypes.REDEEM_SCRIPT, OutputTypes.WITNESS_SCRIPT,
      OutputTypes.BIP32_DERIVATION, OutputTypes.AMOUNT, hpos]
  unfold fromKeyPairs
  rw [processAll_cons_ok _ _ _ _ ha, processAll_cons_error _ _ _ _ hb]

/-- C2 witness: two AMOUNT pairs whose first carries 3 fail with the
duplicate-value error. -/
theorem c2_witness :
    fromKeyPairs [⟨⟨OutputTypes.AMOUNT, []⟩, u64LE 3⟩, ⟨⟨OutputTypes.AMOUNT, []⟩, u64LE 7⟩] =
      .error (.duplicateField "value") :=
  c2_amount_duplicate 3 7 [] (by norm_num) (by norm_num)

/-! ## C3: proprietary dispatch -/

/-- C3 counterexample: a proprietary pair whose identifier `[97]` is not
the magic prefix is silently discarded by decode: the resulting record's
`proprietaryData` is unset, contradicting "preserved in
proprietaryData, never discarded". -/
theorem c3_counterexample :
    (fromKeyPairs [⟨⟨OutputTypes.PROPRIETARY, [1, 97, 153]⟩, [1, 2]⟩,
        propPair OutputProprietaryTypes.ASSET (List.replicate 32 1)]).map
      PsetOutput.proprietaryData = .ok none := by decide

/-- C3 (amended): a PROPRIETARY pair whose identifier is the magic
prefix and whose sub-type is none of the ten recognized codes is
appended verbatim to `proprietaryData`; a pair whose identifier differs
from the magic prefix is silently discarded (the record is returned
unchanged), not preserved. -/
theorem c3_proprietary_dispatch :
    (∀ (st : PsetOutput) (sub : Nat) (suffix v : List Nat),
        sub < 18446744073709551616 → isKnownOutputProprietaryType sub = false →
        processKeyPair st
            ⟨⟨OutputTypes.PROPRIETARY, ProprietaryData.proprietaryKey sub suffix⟩, v⟩ =
          .ok { st with proprietaryData := some (st.proprietaryData.getD [] ++ [⟨magicPrefix, sub, suffix, v⟩]) }) ∧
    (∀ (st : PsetOutput) (ident : List Nat) (sub : Nat) (suffix v : List Nat),
        ident ≠ magicPrefix → ident.length < 18446744073709551616 →
        sub < 18446744073709551616 →
        processKeyPair st
            ⟨⟨OutputTypes.PROPRIETARY,
              varintEncode ident.length ++ ident ++ varintEncode sub ++ suffix⟩, v⟩ =
          .ok st) := by
  constructor
  · intro st sub suffix v hsub hk
    have h1 := processKeyPair_prop st sub suffix v hsub
    have h2 := processProprietary_default st ⟨magicPrefix, sub, suffix, v⟩ rfl hk
    rw [h1, h2]
  · intro st ident sub suffix v hne hlen hsub
    have hp : ProprietaryData.fromKeyPair
        ⟨⟨(252 : Nat), varintEncode ident.length ++ (ident ++ (varintEncode sub ++ suffix))⟩, v⟩ =
        .ok ⟨ident, sub, suffix, v⟩ := by
      have h := fromKeyPair_parse 252 ident sub suffix v hlen hsub
      simpa [List.append_assoc] using h
    unfold processKeyPair
    norm_num [OutputTypes.REDEEM_SCRIPT, OutputTypes.WITNESS_SCRIPT,
      OutputTypes.BIP32_DERIVATION, OutputTypes.AMOUNT, OutputTypes.SCRIPT,
      OutputTypes.TAP_BIP32_DERIVATION, OutputTypes.TAP_TREE,
      OutputTypes.TAP_INTERNAL_KEY, OutputTypes.PROPRIETARY, hp,
      processProprietary_foreign st ⟨ident, sub, suffix, v⟩ hne]

/-- C3 witness: a magic-prefixed pair with unrecognized sub-type 77 is
appended to `proprietaryData`; a pair with identifier `[97]` leaves the
record unchanged. -/
theorem c3_witness :
    (processKeyPair PsetOutput.initial
        ⟨⟨OutputTypes.PROPRIETARY, ProprietaryData.proprietaryKey 77 [3]⟩, [9]⟩ =
      .ok { PsetOutput.initial with proprietaryData := some (PsetOutput.initial.proprietaryData.getD [] ++ [⟨magicPrefix, 77, [3], [9]⟩]) }) ∧
    (processKeyPair PsetOutput.initial
        ⟨⟨OutputTypes.PROPRIETARY,
          varintEncode ([97] : List Nat).length ++ [97] ++ varintEncode 5 ++ []⟩, [9]⟩ =
      .ok PsetOutput.initial) :=
  ⟨c3_proprietary_dispatch.1 PsetOutput.initial 77 [3] [9] (by norm_num) (by decide),
   c3_proprietary_dispatch.2 PsetOutput.initial [97] 5 [] [9] (by decide) (by norm_num)
     (by norm_num)⟩

/-! ## C4: unknowns are dropped by the encoder -/

/-- C4: the key/value sequence produced by the encoder for a record with
a non-empty `unknowns` list ends at the proprietary-data entries and
does not contain the unknown pair at all: the source's final
`keyPairs.concat(this.unknowns || [])` discards the concatenation it
builds, so unknown fields are silently dropped on re-encode. -/
theorem c4_unknowns_dropped :
    ({ asset := some (List.replicate 32 1),
       proprietaryData := some [⟨magicPrefix, 77, [], [5]⟩],
       unknowns := some [⟨⟨99, []⟩, [42]⟩] } : PsetOutput).getKeyPairs =
      [⟨⟨OutputTypes.AMOUNT, []⟩, u64LE 0⟩, ⟨⟨OutputTypes.SCRIPT, []⟩, []⟩,
       propPair OutputProprietaryTypes.ASSET (List.replicate 32 1),
       propPair OutputProprietaryTypes.BLINDER_INDEX (u32LE 0),
       ⟨⟨OutputTypes.PROPRIETARY, ProprietaryData.proprietaryKey 77 []⟩, [5]⟩] := by
  decide

/-! ## C1: round trip. Canonicalization and well-formedness -/

/-- Canonical form of an optional byte field as decode reproduces it:
an empty byte sequence behaves as unset everywhere in the source
(`x && x.length > 0`), so decode of an encode never distinguishes
`none` from `some []`. -/
def canonOpt (x : Option (List Nat)) : Option (List Nat) :=
  if isSet x then x else none

/-- Canonical form of an optional sub-list: an empty list is never
emitted, hence decodes back to unset. -/
def canonListO {α : Type} (x : Option (List α)) : Option (List α) :=
  match x with
  | none => none
  | some l => if l.isEmpty then none else some l

/-- Decode re-parses every proprietary entry under the magic prefix the
encoder wrote for it. -/
def canonPropEntry (d : ProprietaryData) : ProprietaryData :=
  { d with identifier := magicPrefix }

theorem isSet_canonOpt (x : Option (List Nat)) : isSet (canonOpt x) = isSet x := by
  unfold canonOpt
  cases x with
  | none => rfl
  | some l => cases l <;> simp [isSet]

theorem canonOpt_idem (x : Option (List Nat)) : canonOpt (canonOpt x) = canonOpt x := by
  unfold canonOpt
  cases x with
  | none => rfl
  | some l => cases l <;> simp [isSet]

/-- Fixed-size constraint for an optional byte field: when non-empty it
must carry exactly `n` bytes. -/
def wfLen (o : Option (List Nat)) (n : Nat) : Bool :=
  match o with
  | none => true
  | some l => l.isEmpty || decide (l.length = n)

def wfBip32Entry (e : Bip32Derivation) : Bool :=
  decide (e.pubkey.length = 33) && decide (e.masterFingerprint.length = 4) &&
    e.path.all fun c => decide (c < 4294967296)

def wfTapBip32Entry (e : TapBip32Derivation) : Bool :=
  decide (e.pubkey.length = 33) && decide (e.masterFingerprint.length = 4) &&
    (e.path.all fun c => decide (c < 4294967296)) &&
    (e.leafHashes.all fun h => decide (h.length = 32)) &&
    decide (e.leafHashes.length < 18446744073709551616)

/-- Wire well-formedness of a record: every fixed-size field carries its
mandated byte count (the spec's fixed-size field contract), numeric
fields fit their wire width, derivation public keys are distinct, leaf
hashes are 32 bytes, and proprietary entries carry unrecognized
sub-types. -/
def wellFormed (o : PsetOutput) : Bool :=
  decide (o.value < 18446744073709551616) &&
  wfLen o.valueCommitment 33 && wfLen o.assetCommitment 33 &&
  wfLen o.blindingPubkey 33 && wfLen o.ecdhPubkey 33 &&
  wfLen o.asset 32 && wfLen o.tapInternalKey 32 &&
  (match o.blinderIndex with | none => true | some i => decide (i < 4294967296)) &&
  (o.bip32Derivation.getD []).all wfBip32Entry &&
  decide (((o.bip32Derivation.getD []).map Bip32Derivation.pubkey).Nodup) &&
  (o.tapBip32Derivation.getD []).all wfTapBip32Entry &&
  decide (((o.tapBip32Derivation.getD []).map TapBip32Derivation.pubkey).Nodup) &&
  ((o.tapTree.map TapTree.leaves).getD []).all wfTapLeaf &&
  (o.proprietaryData.getD []).all fun d =>
    !isKnownOutputProprietaryType d.subType && decide (d.subType < 18446744073709551616)

/-- The record produced by decoding the encoding of `R` (for well-formed
`R`): each named field canonicalized, the always-emitted fields
defined, proprietary entries re-identified under the magic prefix,
unknowns dropped by the encoder. -/
def decodedOf (R : PsetOutput) : PsetOutput where
  redeemScript := canonOpt R.redeemScript
  witnessScript := canonOpt R.witnessScript
  bip32Derivation := canonListO R.bip32Derivation
  value := R.value % 18446744073709551616
  script := some (R.script.getD [])
  tapBip32Derivation := canonListO R.tapBip32Derivation
  tapTree := R.tapTree
  tapInternalKey := canonOpt R.tapInternalKey
  valueCommitment := canonOpt R.valueCommitment
  asset := some (R.asset.getD [])
  assetCommitment := canonOpt R.assetCommitment
  valueRangeproof := canonOpt R.valueRangeproof
  assetSurjectionProof := canonOpt R.assetSurjectionProof
  blindingPubkey := canonOpt R.blindingPubkey
  ecdhPubkey := canonOpt R.ecdhPubkey
  blinderIndex := some (R.blinderIndex.getD 0 % 4294967296)
  blindValueProof := canonOpt R.blindValueProof
  blindAssetProof := canonOpt R.blindAssetProof
  proprietaryData := canonListO (R.proprietaryData.map (List.map canonPropEntry))
  unknowns := none

theorem processAll_singleton (st : PsetOutput) (kp : KeyPair) :
    processAll st [kp] = processKeyPair st kp := by
  rw [processAll_cons]
  cases processKeyPair st kp <;> rfl

/-! ## C1: per-segment decode lemmas -/

theorem processAll_redeemSeg (st R : PsetOutput) (h : st.redeemScript = none) :
    processAll st (redeemSeg R) = .ok { st with redeemScript := canonOpt R.redeemScript } := by
  unfold redeemSeg canonOpt
  have hst : ({ st with redeemScript := none } : PsetOutput) = st := by rw [← h]
  cases hR : R.redeemScript with
  | none =>
    simp [isSet, processAll, hst]
  | some l =>
    cases l with
    | nil =>
      simp [isSet, processAll, hst]
    | cons b bs =>
      rw [if_pos (by simp [isSet]), if_pos (by simp [isSet]), processAll_singleton]
      unfold processKeyPair
      norm_num [OutputTypes.REDEEM_SCRIPT, isSet, h]

theorem processAll_valueCommitmentSeg (st R : PsetOutput) (h : st.valueCommitment = none)
    (hw : wfLen R.valueCommitment 33 = true) :
    processAll st (valueCommitmentSeg R) =
      .ok { st with valueCommitment := canonOpt R.valueCommitment } := by
  unfold valueCommitmentSeg canonOpt
  have hst : ({ st with valueCommitment := none } : PsetOutput) = st := by rw [← h]
  cases hR : R.valueCommitment with
  | none =>
    simp [isSet, processAll, hst]
  | some l =>
    cases l with
    | nil =>
      simp [isSet, processAll, hst]
    | cons b bs =>
      have hlen : (b :: bs).length = 33 := by
        rw [hR] at hw
        simpa [wfLen] using hw
      rw [if_pos (by simp [isSet]), if_pos (by simp [isSet]), processAll_singleton, propPair,
        processKeyPair_prop _ _ _ _ (by norm_num [OutputProprietaryTypes.VALUE_COMMITMENT]),
        processProprietary_valueCommitment]
      rw [if_neg (by simp [h, isSet]), if_neg (by simp [hlen])]
      simp


theorem processAll_witnessSeg (st R : PsetOutput) (h : st.witnessScript = none) :
    processAll st (witnessSeg R) = .ok { st with witnessScript := canonOpt R.witnessScript } := by
  unfold witnessSeg canonOpt
  have hst : ({ st with witnessScript := none } : PsetOutput) = st := by rw [← h]
  cases hR : R.witnessScript with
  | none => simp [isSet, processAll, hst]
  | some l =>
    cases l with
    | nil => simp [isSet, processAll, hst]
    | cons b bs =>
      rw [if_pos (by simp [isSet]), if_pos (by simp [isSet]), processAll_singleton]
      unfold processKeyPair
      norm_num [OutputTypes.REDEEM_SCRIPT, OutputTypes.WITNESS_SCRIPT, OutputTypes.BIP32_DERIVATION, OutputTypes.AMOUNT, OutputTypes.SCRIPT, OutputTypes.TAP_BIP32_DERIVATION, OutputTypes.TAP_TREE, OutputTypes.TAP_INTERNAL_KEY, OutputTypes.PROPRIETARY, isSet, h]

theorem processAll_tapInternalKeySeg (st R : PsetOutput) (h : st.tapInternalKey = none)
    (hw : wfLen R.tapInternalKey 32 = true) :
    processAll st (tapInternalKeySeg R) =
      .ok { st with tapInternalKey := canonOpt R.tapInternalKey } := by
  unfold tapInternalKeySeg canonOpt
  have hst : ({ st with tapInternalKey := none } : PsetOutput) = st := by rw [← h]
  cases hR : R.tapInternalKey with
  | none => simp [isSet, processAll, hst]
  | some l =>
    cases l with
    | nil => simp [isSet, processAll, hst]
    | cons b bs =>
      have hlen : (b :: bs).length = 32 := by
        rw [hR] at hw
        simpa [wfLen] using hw
      rw [if_pos (by simp [isSet]), if_pos (by simp [isSet]), processAll_singleton]
      unfold processKeyPair
      norm_num [OutputTypes.REDEEM_SCRIPT, OutputTypes.WITNESS_SCRIPT, OutputTypes.BIP32_DERIVATION, OutputTypes.AMOUNT, OutputTypes.SCRIPT, OutputTypes.TAP_BIP32_DERIVATION, OutputTypes.TAP_TREE, OutputTypes.TAP_INTERNAL_KEY, OutputTypes.PROPRIETARY, isSet, h, hlen]

theorem processAll_assetCommitmentSeg (st R : PsetOutput) (h : st.assetCommitment = none)
    (hw : wfLen R.assetCommitment 33 = true) :
    processAll st (assetCommitmentSeg R) = .ok { st with assetCommitment := canonOpt R.assetCommitment } := by
  unfold assetCommitmentSeg canonOpt
  have hst : ({ st with assetCommitment := none } : PsetOutput) = st := by rw [← h]
  cases hR : R.assetCommitment with
  | none => simp [isSet, processAll, hst]
  | some l =>
    cases l with
    | nil => simp [isSet, processAll, hst]
    | cons b bs =>
      have hlen : (b :: bs).length = 33 := by
        rw [hR] at hw
        simpa [wfLen] using hw
      rw [if_pos (by simp [isSet]), if_pos (by simp [isSet]), processAll_singleton, propPair,
        processKeyPair_prop _ _ _ _ (by norm_num [OutputProprietaryTypes.ASSET_COMMITMENT]),
        processProprietary_assetCommitment]
      rw [if_neg (by simp [h, isSet]), if_neg (by simp [hlen])]
      simp

theorem processAll_blindingPubkeySeg (st R : PsetOutput) (h : st.blindingPubkey = none)
    (hw : wfLen R.blindingPubkey 33 = true) :
    processAll st (blindingPubkeySeg R) = .ok { st with blindingPubkey := canonOpt R.blindingPubkey } := by
  unfold blindingPubkeySeg canonOpt
  have hst : ({ st with blindingPubkey := none } : PsetOutput) = st := by rw [← h]
  cases hR : R.blindingPubkey with
  | none => simp [isSet, processAll, hst]
  | some l =>
    cases l with
    | nil => simp [isSet, processAll, hst]
    | cons b bs =>
      have hlen : (b :: bs).length = 33 := by
        rw [hR] at hw
        simpa [wfLen] using hw
      rw [if_pos (by simp [isSet]), if_pos (by simp [isSet]), processAll_singleton, propPair,
        processKeyPair_prop _ _ _ _ (by norm_num [OutputProprietaryTypes.BLINDING_PUBKEY]),
        processProprietary_blindingPubkey]
      rw [if_neg (by simp [h, isSet]), if_neg (by simp [hlen])]
      simp

theorem processAll_ecdhPubkeySeg (st R : PsetOutput) (h : st.ecdhPubkey = none)
    (hw : wfLen R.ecdhPubkey 33 = true) :
    processAll st (ecdhPubkeySeg R) = .ok { st with ecdhPubkey := canonOpt R.ecdhPubkey } := by
  unfold ecdhPubkeySeg canonOpt
  have hst : ({ st with ecdhPubkey := none } : PsetOutput) = st := by rw [← h]
  cases hR : R.ecdhPubkey with
  | none => simp [isSet, processAll, hst]
  | some l =>
    cases l with
    | nil => simp [isSet, processAll, hst]
    | cons b bs =>
      have hlen : (b :: bs).length = 33 := by
        rw [hR] at hw
        simpa [wfLen] using hw
      rw [if_pos (by simp [isSet]), if_pos (by simp [isSet]), processAll_singleton, propPair,
        processKeyPair_prop _ _ _ _ (by norm_num [OutputProprietaryTypes.ECDH_PUBKEY]),
        processProprietary_ecdhPubkey]
      rw [if_neg (by simp [h, isSet]), if_neg (by simp [hlen])]
      simp

theorem processAll_valueRangeproofSeg (st R : PsetOutput) (h : st.valueRangeproof = none) :
    processAll st (valueRangeproofSeg R) = .ok { st with valueRangeproof := canonOpt R.valueRangeproof } := by
  unfold valueRangeproofSeg canonOpt
  have hst : ({ st with valueRangeproof := none } : PsetOutput) = st := by rw [← h]
  cases hR : R.valueRangeproof with
  | none => simp [isSet, processAll, hst]
  | some l =>
    cases l with
    | nil => simp [isSet, processAll, hst]
    | cons b bs =>
      rw [if_pos (by simp [isSet]), if_pos (by simp [isSet]), processAll_singleton, propPair,
        processKeyPair_prop _ _ _ _ (by norm_num [OutputProprietaryTypes.VALUE_RANGEPROOF]),
        processProprietary_valueRangeproof]
      rw [if_neg (by simp [h, isSet])]
      simp

theorem processAll_assetSurjectionProofSeg (st R : PsetOutput) (h : st.assetSurjectionProof = none) :
    processAll st (assetSurjectionProofSeg R) = .ok { st with assetSurjectionProof := canonOpt R.assetSurjectionProof } := by
  unfold assetSurjectionProofSeg canonOpt
  have hst : ({ st with assetSurjectionProof := none } : PsetOutput) = st := by rw [← h]
  cases hR : R.assetSurjectionProof with
  | none => simp [isSet, processAll, hst]
  | some l =>
    cases l with
    | nil => simp [isSet, processAll, hst]
    | cons b bs =>
      rw [if_pos (by simp [isSet]), if_pos (by simp [isSet]), processAll_singleton, propPair,
        processKeyPair_prop _ _ _ _ (by norm_num [OutputProprietaryTypes.ASSET_SURJECTION_PROOF]),
        processProprietary_assetSurjectionProof]
      rw [if_neg (by simp [h, isSet])]
      simp

theorem processAll_blindValueProofSeg (st R : PsetOutput) (h : st.blindValueProof = none) :
    processAll st (blindValueProofSeg R) = .ok { st with blindValueProof := canonOpt R.blindValueProof } := by
  unfold blindValueProofSeg canonOpt
  have hst : ({ st with blindValueProof := none } : PsetOutput) = st := by rw [← h]
  cases hR : R.blindValueProof with
  | none => simp [isSet, processAll, hst]
  | some l =>
    cases l with
    | nil => simp [isSet, processAll, hst]
    | cons b bs =>
      rw [if_pos (by simp [isSet]), if_pos (by simp [isSet]), processAll_singleton, propPair,
        processKeyPair_prop _ _ _ _ (by norm_num [OutputProprietaryTypes.BLIND_VALUE_PROOF]),
        processProprietary_blindValueProof]
      rw [if_neg (by simp [h, isSet])]
      simp

theorem processAll_blindAssetProofSeg (st R : PsetOutput) (h : st.blindAssetProof = none) :
    processAll st (blindAssetProofSeg R) = .ok { st with blindAssetProof := canonOpt R.blindAssetProof } := by
  unfold blindAssetProofSeg canonOpt
  have hst : ({ st with blindAssetProof := none } : PsetOutput) = st := by rw [← h]
  cases hR : R.blindAssetProof with
  | none => simp [isSet, processAll, hst]
  | some l =>
    cases l with
    | nil => simp [isSet, processAll, hst]
    | cons b bs =>
      rw [if_pos (by simp [isSet]), if_pos (by simp [isSet]), processAll_singleton, propPair,
        processKeyPair_prop _ _ _ _ (by norm_num [OutputProprietaryTypes.BLIND_ASSET_PROOF]),
        processProprietary_blindAssetProof]
      rw [if_neg (by simp [h, isSet])]
      simp

theorem processAll_amountSeg (st R : PsetOutput) (h : st.value = 0) :
    processAll st (amountSeg R) =
      .ok { st with value := R.value % 18446744073709551616 } := by
  have hv : readU64LE (u64LE R.value) = R.value % 18446744073709551616 := by
    have h2 := readU64LE_u64LE R.value []
    rwa [List.append_nil] at h2
  unfold amountSeg
  rw [processAll_singleton]
  unfold processKeyPair
  norm_num [OutputTypes.REDEEM_SCRIPT, OutputTypes.WITNESS_SCRIPT, OutputTypes.BIP32_DERIVATION, OutputTypes.AMOUNT, OutputTypes.SCRIPT, OutputTypes.TAP_BIP32_DERIVATION, OutputTypes.TAP_TREE, OutputTypes.TAP_INTERNAL_KEY, OutputTypes.PROPRIETARY, h, u64LE_length, hv]

theorem processAll_scriptSeg (st R : PsetOutput) (h : st.script = none) :
    processAll st (scriptSeg R) = .ok { st with script := some (R.script.getD []) } := by
  unfold scriptSeg
  rw [processAll_singleton]
  unfold processKeyPair
  norm_num [OutputTypes.REDEEM_SCRIPT, OutputTypes.WITNESS_SCRIPT, OutputTypes.BIP32_DERIVATION, OutputTypes.AMOUNT, OutputTypes.SCRIPT, OutputTypes.TAP_BIP32_DERIVATION, OutputTypes.TAP_TREE, OutputTypes.TAP_INTERNAL_KEY, OutputTypes.PROPRIETARY, isSet, h]

theorem processAll_assetSeg (st R : PsetOutput) (h : st.asset = some [])
    (hw : wfLen R.asset 32 = true) :
    processAll st (assetSeg R) = .ok { st with asset := some (R.asset.getD []) } := by
  unfold assetSeg
  have hst : ({ st with asset := some [] } : PsetOutput) = st := by rw [← h]
  cases hR : R.asset with
  | none => simp [isSet, processAll, hst]
  | some l =>
    cases l with
    | nil => simp [isSet, processAll, hst]
    | cons b bs =>
      have hlen : (b :: bs).length = 32 := by
        rw [hR] at hw
        simpa [wfLen] using hw
      rw [if_pos (by simp [isSet]), processAll_singleton, propPair,
        processKeyPair_prop _ _ _ _ (by norm_num [OutputProprietaryTypes.ASSET]),
        processProprietary_asset]
      rw [if_neg (by simp [h, isSet]), if_neg (by simp [hlen])]

theorem processAll_blinderIndexSeg (st R : PsetOutput) (h : st.blinderIndex = none) :
    processAll st (blinderIndexSeg R) =
      .ok { st with blinderIndex := some (R.blinderIndex.getD 0 % 4294967296) } := by
  have hv : readU32LE (u32LE (if 0 < R.blinderIndex.getD 0 then R.blinderIndex.getD 0 else 0)) =
      R.blinderIndex.getD 0 % 4294967296 := by
    have h2 := readU32LE_u32LE (if 0 < R.blinderIndex.getD 0 then R.blinderIndex.getD 0 else 0) []
    rw [List.append_nil] at h2
    rw [h2]
    split_ifs with hp
    · rfl
    · omega
  unfold blinderIndexSeg
  rw [processAll_singleton, propPair,
    processKeyPair_prop _ _ _ _ (by norm_num [OutputProprietaryTypes.BLINDER_INDEX]),
    processProprietary_blinderIndex]
  rw [if_neg (by simp [h]), if_neg (by simp [u32LE]), hv]

theorem processAll_tapTreeSeg (st R : PsetOutput) (h : st.tapTree = none)
    (hw : ((R.tapTree.map TapTree.leaves).getD []).all wfTapLeaf = true) :
    processAll st (tapTreeSeg R) = .ok { st with tapTree := R.tapTree } := by
  unfold tapTreeSeg
  have hst : ({ st with tapTree := none } : PsetOutput) = st := by rw [← h]
  cases hR : R.tapTree with
  | none => simp [processAll, hst]
  | some t =>
    have hd : decodeTapLeaves (encodeTapLeaves t.leaves) = .ok t.leaves := by
      apply decodeTapLeaves_encode
      intro lf hlf
      rw [hR] at hw
      simp only [Option.map_some, Option.getD_some, List.all_eq_true] at hw
      exact hw lf hlf
    rw [processAll_singleton]
    unfold processKeyPair
    norm_num [OutputTypes.REDEEM_SCRIPT, OutputTypes.WITNESS_SCRIPT, OutputTypes.BIP32_DERIVATION, OutputTypes.AMOUNT, OutputTypes.SCRIPT, OutputTypes.TAP_BIP32_DERIVATION, OutputTypes.TAP_TREE, OutputTypes.TAP_INTERNAL_KEY, OutputTypes.PROPRIETARY, h, hd]

theorem processKeyPair_bip32Entry (st : PsetOutput) (e : Bip32Derivation)
    (hwfe : wfBip32Entry e = true)
    (hmem : e.pubkey ∉ (st.bip32Derivation.getD []).map Bip32Derivation.pubkey) :
    processKeyPair st ⟨⟨OutputTypes.BIP32_DERIVATION, e.pubkey⟩,
        encodeBIP32Derivation e.masterFingerprint e.path⟩ =
      .ok { st with bip32Derivation := some (st.bip32Derivation.getD [] ++ [e]) } := by
  have hw : e.pubkey.length = 33 ∧ e.masterFingerprint.length = 4 ∧
      ∀ c ∈ e.path, c < 4294967296 := by
    simpa [wfBip32Entry, List.all_eq_true, and_assoc] using hwfe
  obtain ⟨hpk, hfp, hpath⟩ := hw
  have hfind : ((st.bip32Derivation.getD []).find? fun d => d.pubkey == e.pubkey) = none := by
    rw [List.find?_eq_none]
    intro d hd hbeq
    exact hmem (by
      rw [← (beq_iff_eq.mp hbeq)]
      exact List.mem_map_of_mem Bip32Derivation.pubkey hd)
  unfold processKeyPair
  norm_num [OutputTypes.REDEEM_SCRIPT, OutputTypes.WITNESS_SCRIPT, OutputTypes.BIP32_DERIVATION, OutputTypes.AMOUNT, OutputTypes.SCRIPT, OutputTypes.TAP_BIP32_DERIVATION, OutputTypes.TAP_TREE, OutputTypes.TAP_INTERNAL_KEY, OutputTypes.PROPRIETARY, hpk, hfind,
    decodeBip32_encode e.masterFingerprint e.path hfp hpath]

theorem processAll_bip32List (entries : List Bip32Derivation) (acc : List Bip32Derivation)
    (st : PsetOutput) (h : st.bip32Derivation = some acc)
    (hwf : ∀ e ∈ entries, wfBip32Entry e = true)
    (hnd : ((acc ++ entries).map Bip32Derivation.pubkey).Nodup) :
    processAll st (entries.map fun e => ⟨⟨OutputTypes.BIP32_DERIVATION, e.pubkey⟩,
        encodeBIP32Derivation e.masterFingerprint e.path⟩) =
      .ok { st with bip32Derivation := some (acc ++ entries) } := by
  induction entries generalizing st acc with
  | nil =>
    have hst : ({ st with bip32Derivation := some acc } : PsetOutput) = st := by rw [← h]
    simp [processAll, hst]
  | cons e t ih =>
    have hm := hnd
    rw [List.map_append, List.nodup_append] at hm
    have hmem : e.pubkey ∉ (st.bip32Derivation.getD []).map Bip32Derivation.pubkey := by
      rw [h, Option.getD_some]
      exact fun hin => hm.2.2 hin (by simp)
    have hstep := processKeyPair_bip32Entry st e (hwf e (by simp)) hmem
    rw [h, Option.getD_some] at hstep
    rw [List.map_cons, processAll_cons_ok _ _ _ _ hstep]
    have ihr := ih (acc ++ [e]) { st with bip32Derivation := some (acc ++ [e]) } (by simp)
      (fun x hx => hwf x (by simp [hx]))
      (by simpa [List.append_assoc] using hnd)
    rw [ihr]
    simp

theorem processAll_bip32Seg (st R : PsetOutput) (h : st.bip32Derivation = none)
    (hwf : (R.bip32Derivation.getD []).all wfBip32Entry = true)
    (hnd : ((R.bip32Derivation.getD []).map Bip32Derivation.pubkey).Nodup) :
    processAll st (bip32Seg R) =
      .ok { st with bip32Derivation := canonListO R.bip32Derivation } := by
  unfold bip32Seg canonListO
  have hst : ({ st with bip32Derivation := none } : PsetOutput) = st := by rw [← h]
  cases hR : R.bip32Derivation with
  | none => simp [processAll, hst]
  | some l =>
    cases l with
    | nil => simp [processAll, hst]
    | cons e t =>
      rw [hR, Option.getD_some] at hwf hnd
      have hwf' : ∀ x ∈ e :: t, wfBip32Entry x = true := by
        simpa [List.all_eq_true] using hwf
      have hmem : e.pubkey ∉ (st.bip32Derivation.getD []).map Bip32Derivation.pubkey := by
        rw [h]
        simp
      have hstep := processKeyPair_bip32Entry st e (hwf' e (by simp)) hmem
      rw [h] at hstep
      simp only [Option.getD_none, List.nil_append] at hstep
      have hmain : processAll st ((e :: t).map fun x =>
          (⟨⟨OutputTypes.BIP32_DERIVATION, x.pubkey⟩,
            encodeBIP32Derivation x.masterFingerprint x.path⟩ : KeyPair)) =
          .ok { st with bip32Derivation := some (e :: t) } := by
        rw [List.map_cons, processAll_cons_ok _ _ _ _ hstep]
        have ihr := processAll_bip32List t [e] { st with bip32Derivation := some [e] } (by simp)
          (fun x hx => hwf' x (by simp [hx])) (by simpa using hnd)
        rw [ihr]
        simp
      simpa using hmain

theorem flatten_length_const (hs : List (List Nat)) (h : ∀ x ∈ hs, x.length = 32) :
    hs.flatten.length = 32 * hs.length := by
  induction hs with
  | nil => simp
  | cons x t ih =>
    have hx := h x (by simp)
    have ht := ih fun y hy => h y (by simp [hy])
    simp [hx, ht]
    ring_nf

theorem slices_flatten (hs : List (List Nat)) (tail : List Nat)
    (h : ∀ x ∈ hs, x.length = 32) :
    (List.range hs.length).map
      (fun i => ((hs.flatten ++ tail).drop (i * 32)).take 32) = hs := by
  induction hs generalizing tail with
  | nil => simp
  | cons x t ih =>
    have hx : x.length = 32 := h x (by simp)
    have hassoc : (x :: t).flatten ++ tail = x ++ (t.flatten ++ tail) := by
      simp [List.append_assoc]
    rw [List.length_cons, List.range_succ_eq_map, List.map_cons, List.map_map, hassoc]
    congr 1
    · rw [Nat.zero_mul, List.drop_zero, ← hx, List.take_left]
    · have hcomp : ∀ i : Nat, ((x ++ (t.flatten ++ tail)).drop (Nat.succ i * 32)).take 32 =
          ((t.flatten ++ tail).drop (i * 32)).take 32 := by
        intro i
        rw [show Nat.succ i * 32 = x.length + i * 32 by rw [hx]; omega]
        rw [← List.drop_drop, List.drop_left]
      calc (List.range t.length).map
            ((fun i => ((x ++ (t.flatten ++ tail)).drop (i * 32)).take 32) ∘ Nat.succ)
          = (List.range t.length).map
            (fun i => ((t.flatten ++ tail).drop (i * 32)).take 32) :=
            List.map_congr_left fun i _ => hcomp i
        _ = t := ih tail fun y hy => h y (by simp [hy])

theorem processKeyPair_tapBip32Entry (st : PsetOutput) (e : TapBip32Derivation)
    (hwfe : wfTapBip32Entry e = true)
    (hmem : e.pubkey ∉ (st.tapBip32Derivation.getD []).map TapBip32Derivation.pubkey) :
    processKeyPair st ⟨⟨OutputTypes.TAP_BIP32_DERIVATION, e.pubkey⟩,
        varintEncode e.leafHashes.length ++ e.leafHashes.flatten ++
          encodeBIP32Derivation e.masterFingerprint e.path⟩ =
      .ok { st with tapBip32Derivation := some (st.tapBip32Derivation.getD [] ++ [e]) } := by
  have hw : e.pubkey.length = 33 ∧ e.masterFingerprint.length = 4 ∧
      (∀ c ∈ e.path, c < 4294967296) ∧ (∀ x ∈ e.leafHashes, x.length = 32) ∧
      e.leafHashes.length < 18446744073709551616 := by
    simpa [wfTapBip32Entry, List.all_eq_true, and_assoc] using hwfe
  obtain ⟨hpk, hfp, hpath, h32, hk⟩ := hw
  have hassoc : varintEncode e.leafHashes.length ++ e.leafHashes.flatten ++
      encodeBIP32Derivation e.masterFingerprint e.path =
      varintEncode e.leafHashes.length ++ (e.leafHashes.flatten ++
        encodeBIP32Derivation e.masterFingerprint e.path) := by
    simp [List.append_assoc]
  have hfind : ((st.tapBip32Derivation.getD []).find? fun d => d.pubkey == e.pubkey) = none := by
    rw [List.find?_eq_none]
    intro d hd hbeq
    exact hmem (by
      rw [← (beq_iff_eq.mp hbeq)]
      exact List.mem_map_of_mem TapBip32Derivation.pubkey hd)
  have hdec : varintDecode (varintEncode e.leafHashes.length ++ (e.leafHashes.flatten ++
      encodeBIP32Derivation e.masterFingerprint e.path)) = .ok e.leafHashes.length :=
    varintDecode_encode _ _ hk
  have hflen : e.leafHashes.flatten.length = e.leafHashes.length * 32 := by
    rw [flatten_length_const e.leafHashes h32, Nat.mul_comm]
  have hdropfun : ∀ m : Nat, ((varintEncode e.leafHashes.length ++ (e.leafHashes.flatten ++
      encodeBIP32Derivation e.masterFingerprint e.path)).drop
        (varintEncodingLength e.leafHashes.length + m)) =
      (e.leafHashes.flatten ++ encodeBIP32Derivation e.masterFingerprint e.path).drop m := by
    intro m
    rw [← List.drop_drop, List.drop_left' (varintEncode_length _)]
  have hbip : (e.leafHashes.flatten ++
      encodeBIP32Derivation e.masterFingerprint e.path).drop (e.leafHashes.length * 32) =
      encodeBIP32Derivation e.masterFingerprint e.path := List.drop_left' hflen
  have hslices : (List.range e.leafHashes.length).map (fun i =>
      ((e.leafHashes.flatten ++ encodeBIP32Derivation e.masterFingerprint e.path).drop
        (i * 32)).take 32) = e.leafHashes := slices_flatten _ _ h32
  unfold processKeyPair
  norm_num [OutputTypes.REDEEM_SCRIPT, OutputTypes.WITNESS_SCRIPT, OutputTypes.BIP32_DERIVATION, OutputTypes.AMOUNT, OutputTypes.SCRIPT, OutputTypes.TAP_BIP32_DERIVATION, OutputTypes.TAP_TREE, OutputTypes.TAP_INTERNAL_KEY, OutputTypes.PROPRIETARY, hpk, hfind, hassoc, hdec, hdropfun, hbip, hslices,
    decodeBip32_encode e.masterFingerprint e.path hfp hpath]

theorem processAll_tapBip32List (entries : List TapBip32Derivation)
    (acc : List TapBip32Derivation) (st : PsetOutput)
    (h : st.tapBip32Derivation = some acc)
    (hwf : ∀ e ∈ entries, wfTapBip32Entry e = true)
    (hnd : ((acc ++ entries).map TapBip32Derivation.pubkey).Nodup) :
    processAll st (entries.map fun e => ⟨⟨OutputTypes.TAP_BIP32_DERIVATION, e.pubkey⟩,
        varintEncode e.leafHashes.length ++ e.leafHashes.flatten ++
          encodeBIP32Derivation e.masterFingerprint e.path⟩) =
      .ok { st with tapBip32Derivation := some (acc ++ entries) } := by
  induction entries generalizing st acc with
  | nil =>
    have hst : ({ st with tapBip32Derivation := some acc } : PsetOutput) = st := by rw [← h]
    simp [processAll, hst]
  | cons e t ih =>
    have hm := hnd
    rw [List.map_append, List.nodup_append] at hm
    have hmem : e.pubkey ∉ (st.tapBip32Derivation.getD []).map TapBip32Derivation.pubkey := by
      rw [h, Option.getD_some]
      exact fun hin => hm.2.2 hin (by simp)
    have hstep := processKeyPair_tapBip32Entry st e (hwf e (by simp)) hmem
    rw [h, Option.getD_some] at hstep
    rw [List.map_cons, processAll_cons_ok _ _ _ _ hstep]
    have ihr := ih (acc ++ [e]) { st with tapBip32Derivation := some (acc ++ [e]) } (by simp)
      (fun x hx => hwf x (by simp [hx]))
      (by simpa [List.append_assoc] using hnd)
    rw [ihr]
    simp

theorem processAll_tapBip32Seg (st R : PsetOutput) (h : st.tapBip32Derivation = none)
    (hwf : (R.tapBip32Derivation.getD []).all wfTapBip32Entry = true)
    (hnd : ((R.tapBip32Derivation.getD []).map TapBip32Derivation.pubkey).Nodup) :
    processAll st (tapBip32Seg R) =
      .ok { st with tapBip32Derivation := canonListO R.tapBip32Derivation } := by
  unfold tapBip32Seg canonListO
  have hst : ({ st with tapBip32Derivation := none } : PsetOutput) = st := by rw [← h]
  cases hR : R.tapBip32Derivation with
  | none => simp [processAll, hst]
  | some l =>
    cases l with
    | nil => simp [processAll, hst]
    | cons e t =>
      rw [hR, Option.getD_some] at hwf hnd
      have hwf' : ∀ x ∈ e :: t, wfTapBip32Entry x = true := by
        simpa [List.all_eq_true] using hwf
      have hmem : e.pubkey ∉ (st.tapBip32Derivation.getD []).map TapBip32Derivation.pubkey := by
        rw [h]
        simp
      have hstep := processKeyPair_tapBip32Entry st e (hwf' e (by simp)) hmem
      rw [h] at hstep
      simp only [Option.getD_none, List.nil_append] at hstep
      have hmain : processAll st ((e :: t).map fun x =>
          (⟨⟨OutputTypes.TAP_BIP32_DERIVATION, x.pubkey⟩,
            varintEncode x.leafHashes.length ++ x.leafHashes.flatten ++
              encodeBIP32Derivation x.masterFingerprint x.path⟩ : KeyPair)) =
          .ok { st with tapBip32Derivation := some (e :: t) } := by
        rw [List.map_cons, processAll_cons_ok _ _ _ _ hstep]
        have ihr := processAll_tapBip32List t [e]
          { st with tapBip32Derivation := some [e] } (by simp)
          (fun x hx => hwf' x (by simp [hx])) (by simpa using hnd)
        rw [ihr]
        simp
      simpa using hmain

theorem processKeyPair_propEntry (st : PsetOutput) (d : ProprietaryData)
    (hsub : d.subType < 18446744073709551616)
    (hk : isKnownOutputProprietaryType d.subType = false) :
    processKeyPair st ⟨⟨OutputTypes.PROPRIETARY,
        ProprietaryData.proprietaryKey d.subType d.keyData⟩, d.value⟩ =
      .ok { st with proprietaryData := some (st.proprietaryData.getD [] ++ [canonPropEntry d]) } := by
  have h1 := processKeyPair_prop st d.subType d.keyData d.value hsub
  have h2 := processProprietary_default st ⟨magicPrefix, d.subType, d.keyData, d.value⟩ rfl hk
  rw [h1, h2]
  rfl

theorem processAll_propList (entries acc : List ProprietaryData) (st : PsetOutput)
    (h : st.proprietaryData = some acc)
    (hwf : ∀ d ∈ entries, isKnownOutputProprietaryType d.subType = false ∧
      d.subType < 18446744073709551616) :
    processAll st (entries.map fun d => ⟨⟨OutputTypes.PROPRIETARY,
        ProprietaryData.proprietaryKey d.subType d.keyData⟩, d.value⟩) =
      .ok { st with proprietaryData := some (acc ++ entries.map canonPropEntry) } := by
  induction entries generalizing st acc with
  | nil =>
    have hst : ({ st with proprietaryData := some acc } : PsetOutput) = st := by rw [← h]
    simp [processAll, hst]
  | cons d t ih =>
    have hstep := processKeyPair_propEntry st d (hwf d (by simp)).2 (hwf d (by simp)).1
    rw [h, Option.getD_some] at hstep
    rw [List.map_cons, processAll_cons_ok _ _ _ _ hstep]
    have ihr := ih (acc ++ [canonPropEntry d])
      { st with proprietaryData := some (acc ++ [canonPropEntry d]) } (by simp)
      (fun x hx => hwf x (by simp [hx]))
    rw [ihr]
    simp

theorem processAll_proprietarySeg (st R : PsetOutput) (h : st.proprietaryData = none)
    (hwf : (R.proprietaryData.getD []).all (fun d =>
      !isKnownOutputProprietaryType d.subType &&
        decide (d.subType < 18446744073709551616)) = true) :
    processAll st (proprietarySeg R) =
      .ok { st with proprietaryData := canonListO (R.proprietaryData.map (List.map canonPropEntry)) } := by
  unfold proprietarySeg canonListO
  have hst : ({ st with proprietaryData := none } : PsetOutput) = st := by rw [← h]
  cases hR : R.proprietaryData with
  | none => simp [processAll, hst]
  | some l =>
    cases l with
    | nil => simp [processAll, hst]
    | cons d t =>
      rw [hR, Option.getD_some] at hwf
      have hwf' : ∀ x ∈ d :: t, isKnownOutputProprietaryType x.subType = false ∧
          x.subType < 18446744073709551616 := by
        intro x hx
        have hh := List.all_eq_true.mp hwf x hx
        simp only [Bool.and_eq_true, Bool.not_eq_true', decide_eq_true_eq] at hh
        exact hh
      have hstep := processKeyPair_propEntry st d (hwf' d (by simp)).2 (hwf' d (by simp)).1
      rw [h] at hstep
      simp only [Option.getD_none, List.nil_append] at hstep
      have hmain : processAll st ((d :: t).map fun x =>
          (⟨⟨OutputTypes.PROPRIETARY,
            ProprietaryData.proprietaryKey x.subType x.keyData⟩, x.value⟩ : KeyPair)) =
          .ok { st with proprietaryData := some ((d :: t).map canonPropEntry) } := by
        rw [List.map_cons, processAll_cons_ok _ _ _ _ hstep]
        have ihr := processAll_propList t [canonPropEntry d]
          { st with proprietaryData := some [canonPropEntry d] } (by simp)
          (fun x hx => hwf' x (by simp [hx]))
        rw [ihr]
        simp
      simpa using hmain

/-! ## C1: invariance of the sanity check under decode canonicalization -/

theorem sanityCheck_ok_self_iff (o : PsetOutput) :
    o.sanityCheck = .ok o ↔
      (¬(0 < o.value ∧ setFlag o.valueCommitment ≠ setFlag o.blindValueProof) ∧
       ¬(isSet o.assetCommitment = false ∧ isSet o.asset = false) ∧
       ¬(isSet o.asset = true ∧ setFlag o.assetCommitment ≠ setFlag o.blindAssetProof) ∧
       ¬(o.isPartiallyBlinded = true ∧ o.isFullyBlinded = false) ∧
       ¬(o.isFullyBlinded = true ∧ 0 < o.blinderIndex.getD 0)) := by
  unfold PsetOutput.sanityCheck
  split_ifs with h1 h2 h3 h4 h5 <;> simp_all

/-- Canonicalization collapses a defined empty buffer into an unset
field, so the decoded record's `setFlag` is `some true` where the
original's was and `none` otherwise. -/
theorem setFlag_canonOpt (x : Option (List Nat)) :
    setFlag (canonOpt x) = if setFlag x = some true then some true else none := by
  cases x with
  | none => rfl
  | some l => cases l <;> simp [canonOpt, setFlag, isSet]

theorem isSet_some_getD (x : Option (List Nat)) : isSet (some (x.getD [])) = isSet x := by
  cases x with
  | none => rfl
  | some l => rfl

theorem canonListO_getD {α : Type} (x : Option (List α)) :
    (canonListO x).getD [] = x.getD [] := by
  cases x with
  | none => rfl
  | some l => cases l <;> simp [canonListO]

theorem sanityCheck_decodedOf (R : PsetOutput) (hv : R.value < 18446744073709551616)
    (hbi : R.blinderIndex.getD 0 < 4294967296)
    (hs : R.sanityCheck = .ok R) :
    (decodedOf R).sanityCheck = .ok (decodedOf R) := by
  rw [sanityCheck_ok_self_iff] at hs ⊢
  obtain ⟨g1, g2, g3, g4, g5⟩ := hs
  have e1 : (decodedOf R).value = R.value := by
    simp [decodedOf, Nat.mod_eq_of_lt hv]
  have e2 : (decodedOf R).blinderIndex.getD 0 = R.blinderIndex.getD 0 := by
    simp [decodedOf, Nat.mod_eq_of_lt hbi]
  have e3 : (decodedOf R).isPartiallyBlinded = R.isPartiallyBlinded := by
    simp [PsetOutput.isPartiallyBlinded, decodedOf, isSet_canonOpt]
  have e4 : (decodedOf R).isFullyBlinded = R.isFullyBlinded := by
    simp [PsetOutput.isFullyBlinded, decodedOf, isSet_canonOpt]
  have e5 : isSet (decodedOf R).asset = isSet R.asset := by
    simp [decodedOf, isSet_some_getD]
  have e8 : isSet (decodedOf R).assetCommitment = isSet R.assetCommitment := by
    simp [decodedOf, isSet_canonOpt]
  refine ⟨?_, ?_, ?_, ?_, ?_⟩
  · rintro ⟨ha, hb⟩
    rw [e1] at ha
    refine g1 ⟨ha, fun heq => hb ?_⟩
    show setFlag (canonOpt R.valueCommitment) = setFlag (canonOpt R.blindValueProof)
    rw [setFlag_canonOpt, setFlag_canonOpt, heq]
  · rintro ⟨ha, hb⟩
    rw [e8] at ha
    rw [e5] at hb
    exact g2 ⟨ha, hb⟩
  · rintro ⟨ha, hb⟩
    rw [e5] at ha
    refine g3 ⟨ha, fun heq => hb ?_⟩
    show setFlag (canonOpt R.assetCommitment) = setFlag (canonOpt R.blindAssetProof)
    rw [setFlag_canonOpt, setFlag_canonOpt, heq]
  · rintro ⟨ha, hb⟩
    rw [e3] at ha
    rw [e4] at hb
    exact g4 ⟨ha, hb⟩
  · rintro ⟨ha, hb⟩
    rw [e4] at ha
    rw [e2] at hb
    exact g5 ⟨ha, hb⟩

/-- Field-for-field agreement over the union of named fields and the
ordered sub-lists `bip32Derivation`, `tapTree.leaves` and
`tapBip32Derivation`, identifying an unset optional byte field with an
empty one and an unset `blinderIndex` with 0. -/
def matchesNamedFields (D R : PsetOutput) : Prop :=
  canonOpt D.redeemScript = canonOpt R.redeemScript ∧
  canonOpt D.witnessScript = canonOpt R.witnessScript ∧
  D.value = R.value ∧
  D.script.getD [] = R.script.getD [] ∧
  canonOpt D.tapInternalKey = canonOpt R.tapInternalKey ∧
  canonOpt D.valueCommitment = canonOpt R.valueCommitment ∧
  D.asset.getD [] = R.asset.getD [] ∧
  canonOpt D.assetCommitment = canonOpt R.assetCommitment ∧
  canonOpt D.valueRangeproof = canonOpt R.valueRangeproof ∧
  canonOpt D.assetSurjectionProof = canonOpt R.assetSurjectionProof ∧
  canonOpt D.blindingPubkey = canonOpt R.blindingPubkey ∧
  canonOpt D.ecdhPubkey = canonOpt R.ecdhPubkey ∧
  D.blinderIndex.getD 0 = R.blinderIndex.getD 0 ∧
  canonOpt D.blindValueProof = canonOpt R.blindValueProof ∧
  canonOpt D.blindAssetProof = canonOpt R.blindAssetProof ∧
  D.bip32Derivation.getD [] = R.bip32Derivation.getD [] ∧
  D.tapTree = R.tapTree ∧
  D.tapBip32Derivation.getD [] = R.tapBip32Derivation.getD []

theorem decodedOf_matches (R : PsetOutput) (hv : R.value < 18446744073709551616)
    (hbi : R.blinderIndex.getD 0 < 4294967296) :
    matchesNamedFields (decodedOf R) R := by
  unfold matchesNamedFields
  simp [decodedOf, canonOpt_idem, canonListO_getD, Nat.mod_eq_of_lt hv, Nat.mod_eq_of_lt hbi]

/-- C1 counterexample: the record with a 32-byte asset and `script`
unset passes `sanityCheck`, yet decoding the byte stream produced by
encoding it yields `script = some []` — not equal field-for-field to the
original record, whose `script` is unset. -/
theorem c1_counterexample :
    (({ asset := some (List.replicate 32 1) } : PsetOutput).sanityCheck
        = .ok { asset := some (List.replicate 32 1) }) ∧
    (fromKeyPairs ({ asset := some (List.replicate 32 1) } : PsetOutput).getKeyPairs).map
        PsetOutput.script = .ok (some []) ∧
    ({ asset := some (List.replicate 32 1) } : PsetOutput).script = none :=
  ⟨by decide, by decide, rfl⟩

/-- C1 (amended): for every wire-well-formed output record `R` that
passes `sanityCheck` (fixed-size fields carry their mandated lengths,
derivation public keys are 33 bytes and distinct, leaf hashes 32 bytes,
tree depths and versions fit a byte, value and list counts fit a u64,
blinder index fits a u32, proprietary entries carry unrecognized
sub-types), decoding the key/value stream produced by encoding `R`
succeeds and yields a record equal to `R` on every named field and on
the ordered sub-lists `bip32Derivation`, `tapTree.leaves` and
`tapBip32Derivation`, after identifying an unset optional byte field
with an empty one and an unset `blinderIndex` with 0 (decode always
materializes `script`, `asset` and `blinderIndex`). -/
theorem c1_roundtrip (R : PsetOutput) (hwf : wellFormed R = true)
    (hs : R.sanityCheck = .ok R) :
    fromKeyPairs R.getKeyPairs = .ok (decodedOf R) ∧
      matchesNamedFields (decodedOf R) R := by
  have hw := hwf
  simp only [wellFormed, Bool.and_eq_true, decide_eq_true_eq] at hw
  obtain ⟨⟨⟨⟨⟨⟨⟨⟨⟨⟨⟨⟨⟨hval, hvc⟩, hac⟩, hbpk⟩, hecdh⟩, hassetW⟩, htik⟩, hbidx⟩,
    hb32all⟩, hb32nd⟩, htball⟩, htbnd⟩, httall⟩, hprop⟩ := hw
  have hbi : R.blinderIndex.getD 0 < 4294967296 := by
    cases hb : R.blinderIndex with
    | none => norm_num
    | some i =>
      rw [hb] at hbidx
      simpa using hbidx
  have h0 : processAll PsetOutput.initial R.getKeyPairs = .ok (decodedOf R) := by
    unfold PsetOutput.getKeyPairs
    simp only [List.append_assoc]
    rw [processAll_append_ok _ _ _ _ (processAll_redeemSeg PsetOutput.initial R rfl)]
    rw [processAll_append_ok _ _ _ _ (processAll_witnessSeg _ R rfl)]
    rw [processAll_append_ok _ _ _ _ (processAll_bip32Seg _ R rfl hb32all hb32nd)]
    rw [processAll_append_ok _ _ _ _ (processAll_tapBip32Seg _ R rfl htball htbnd)]
    rw [processAll_append_ok _ _ _ _ (processAll_tapTreeSeg _ R rfl httall)]
    rw [processAll_append_ok _ _ _ _ (processAll_tapInternalKeySeg _ R rfl htik)]
    rw [processAll_append_ok _ _ _ _ (processAll_amountSeg _ R rfl)]
    rw [processAll_append_ok _ _ _ _ (processAll_scriptSeg _ R rfl)]
    rw [processAll_append_ok _ _ _ _ (processAll_valueCommitmentSeg _ R rfl hvc)]
    rw [processAll_append_ok _ _ _ _ (processAll_assetCommitmentSeg _ R rfl hac)]
    rw [processAll_append_ok _ _ _ _ (processAll_assetSeg _ R rfl hassetW)]
    rw [processAll_append_ok _ _ _ _ (processAll_valueRangeproofSeg _ R rfl)]
    rw [processAll_append_ok _ _ _ _ (processAll_assetSurjectionProofSeg _ R rfl)]
    rw [processAll_append_ok _ _ _ _ (processAll_blindingPubkeySeg _ R rfl hbpk)]
    rw [processAll_append_ok _ _ _ _ (processAll_ecdhPubkeySeg _ R rfl hecdh)]
    rw [processAll_append_ok _ _ _ _ (processAll_blinderIndexSeg _ R rfl)]
    rw [processAll_append_ok _ _ _ _ (processAll_blindValueProofSeg _ R rfl)]
    rw [processAll_append_ok _ _ _ _ (processAll_blindAssetProofSeg _ R rfl)]
    rw [processAll_proprietarySeg _ R rfl hprop]
    rfl
  constructor
  · unfold fromKeyPairs
    rw [h0]
    exact sanityCheck_decodedOf R hval hbi hs
  · exact decodedOf_matches R hval hbi

/-- A concrete record exercising the round trip: amount, script, redeem
script, asset, a BIP32 derivation entry, a taproot tree and a blinder
index. -/
def c1WitnessRecord : PsetOutput :=
  { value := 1200, script := some [0, 20], asset := some (List.replicate 32 3),
    redeemScript := some [81],
    bip32Derivation := some [⟨List.replicate 33 2, [1, 2, 3, 4], [44, 1, 0]⟩],
    tapTree := some ⟨[⟨1, 192, [81, 81, 81]⟩]⟩,
    blinderIndex := some 2 }

/-- C1 witness: the round trip instantiated at `c1WitnessRecord`. -/
theorem c1_witness :
    fromKeyPairs c1WitnessRecord.getKeyPairs = .ok (decodedOf c1WitnessRecord) ∧
      matchesNamedFields (decodedOf c1WitnessRecord) c1WitnessRecord :=
  c1_roundtrip c1WitnessRecord (by decide) (by decide)

end PsetV2
